import Mathlib

/-!
# Deadlock simulator and health check: embedding and verified properties

Sources embedded here:

* `go-deadlock-simulator/main.go`: `session1`, `session2`, `simulateDeadlock`
* `go-server/main.go`: `healthCheckHandler`

The two session functions are embedded twice, with a theorem linking the two
views:

* as functions from the answers of the store to the sequence of calls the
  session makes (section "Sequential view");
* as program counters of a step function of the whole process, in which the
  two goroutines and `simulateDeadlock` interleave over a store with
  exclusive row locks (section "Process view").

Go semantics that matter and are modelled explicitly:

* deferred calls run, last registered first, when the function returns;
* `log.Fatalf` prints and calls `os.Exit(1)`: the process ends at once and
  no deferred call runs, in no goroutine.
-/

namespace PgCluster

set_option linter.unusedTactic false
set_option linter.unreachableTactic false
set_option linter.unnecessarySeqFocus false

/-! ## Values -/

/-- Kinds of error a store call can return.  The code never inspects the kind. -/
inductive ErrKind where
  | deadlock
  | connection
  | constraint
  | other
  deriving DecidableEq, Repr

/-- Go `error` value: a kind and the text `err.Error()` returns (what `%v` prints). -/
structure GoError where
  kind : ErrKind
  msg : String
  deriving DecidableEq, Repr

/-- Statement `UPDATE deadlock_test SET value = '<value>' WHERE id = <id>`. -/
structure Update where
  value : String
  id : Nat
  deriving DecidableEq, Repr

/-- Go `time.Second`, in nanoseconds. -/
def second : Nat := 1000000000

/-- Calls a session makes, in order, each with the answer it got. -/
inductive Op where
  | sqlOpen (err : Option GoError)
  | begin (err : Option GoError)
  | exec (u : Update) (err : Option GoError)
  | sleep (d : Nat)
  | printf (format : String) (arg : GoError)
  | fatalf (format : String) (arg : GoError)
  | commit (err : Option GoError)
  | rollback
  | dbClose
  deriving DecidableEq, Repr

/-- How the execution of a function ends. -/
inductive Ending where
  | returned
  | exited (code : Nat)
  deriving DecidableEq, Repr

/-- Complete execution of a session: the calls made and how it ended. -/
structure Run where
  trace : List Op
  ending : Ending
  deriving DecidableEq, Repr

/-- Answers of the store to the calls of one session. -/
structure Responses where
  openErr : Option GoError
  beginErr : Option GoError
  exec1Err : Option GoError
  exec2Err : Option GoError
  commitErr : Option GoError
  deriving DecidableEq, Repr

/-- Every call succeeds. -/
def Responses.allOk : Responses := ⟨none, none, none, none, none⟩

/-! ## Sequential view -/

/-- Go `log.Fatalf(format, err)`: print, then `os.Exit(1)`; deferred calls do not run. -/
def fatalf (t : List Op) (format : String) (err : GoError) : Run :=
  ⟨t ++ [Op.fatalf format err], Ending.exited 1⟩

/-- Go `return`: the deferred calls run, last registered first (head of `defers`). -/
def ret (t : List Op) (defers : List Op) : Run :=
  ⟨t ++ defers, Ending.returned⟩

/-- Source `session1` (go-deadlock-simulator/main.go, lines 66-97). -/
def session1 (r : Responses) : Run :=
  let t := [Op.sqlOpen r.openErr]
  match r.openErr with
  | some err => fatalf t "Session1: Failed to connect: %v" err
  | none =>
  let defers := [Op.dbClose]
  let t := t ++ [Op.begin r.beginErr]
  match r.beginErr with
  | some err => fatalf t "Session1: Failed to begin transaction: %v" err
  | none =>
  let defers := Op.rollback :: defers
  let t := t ++ [Op.exec ⟨"Session1", 1⟩ r.exec1Err]
  match r.exec1Err with
  | some err => fatalf t "Session1: Failed to lock row 1: %v" err
  | none =>
  let t := t ++ [Op.sleep (2 * second)]
  let t := t ++ [Op.exec ⟨"Session1", 2⟩ r.exec2Err]
  match r.exec2Err with
  | some err => ret (t ++ [Op.printf "Session1: Deadlock detected: %v" err]) defers
  | none =>
  let t := t ++ [Op.commit r.commitErr]
  match r.commitErr with
  | some err => fatalf t "Session1: Failed to commit: %v" err
  | none => ret t defers

/-- Source `session2` (go-deadlock-simulator/main.go, lines 99-130). -/
def session2 (r : Responses) : Run :=
  let t := [Op.sqlOpen r.openErr]
  match r.openErr with
  | some err => fatalf t "Session2: Failed to connect: %v" err
  | none =>
  let defers := [Op.dbClose]
  let t := t ++ [Op.begin r.beginErr]
  match r.beginErr with
  | some err => fatalf t "Session2: Failed to begin transaction: %v" err
  | none =>
  let defers := Op.rollback :: defers
  let t := t ++ [Op.exec ⟨"Session2", 2⟩ r.exec1Err]
  match r.exec1Err with
  | some err => fatalf t "Session2: Failed to lock row 2: %v" err
  | none =>
  let t := t ++ [Op.sleep (2 * second)]
  let t := t ++ [Op.exec ⟨"Session2", 1⟩ r.exec2Err]
  match r.exec2Err with
  | some err => ret (t ++ [Op.printf "Session2: Deadlock detected: %v" err]) defers
  | none =>
  let t := t ++ [Op.commit r.commitErr]
  match r.commitErr with
  | some err => fatalf t "Session2: Failed to commit: %v" err
  | none => ret t defers

/-- The two session functions of the source. -/
inductive SessionId where
  | s1
  | s2
  deriving DecidableEq, Repr

/-- The other session. -/
def SessionId.other : SessionId → SessionId
  | .s1 => .s2
  | .s2 => .s1

/-- Session function named by an identifier. -/
def session : SessionId → Responses → Run
  | .s1 => session1
  | .s2 => session2

/-- First UPDATE of a session, as written in the source. -/
def firstUpdate : SessionId → Update
  | .s1 => ⟨"Session1", 1⟩
  | .s2 => ⟨"Session2", 2⟩

/-- Second UPDATE of a session, as written in the source. -/
def secondUpdate : SessionId → Update
  | .s1 => ⟨"Session1", 2⟩
  | .s2 => ⟨"Session2", 1⟩

/-- Value a session writes. -/
def ownValue : SessionId → String
  | .s1 => "Session1"
  | .s2 => "Session2"

/-- Format of the log line printed when the second UPDATE fails. -/
def deadlockFormat : SessionId → String
  | .s1 => "Session1: Deadlock detected: %v"
  | .s2 => "Session2: Deadlock detected: %v"

/-! ### Observations on traces -/

/-- Whether a call is a Commit. -/
def Op.isCommit : Op → Bool
  | .commit _ => true
  | _ => false

/-- Whether a call is an UPDATE. -/
def Op.isExec : Op → Bool
  | .exec _ _ => true
  | _ => false

/-- Whether a call is a pause. -/
def Op.isSleep : Op → Bool
  | .sleep _ => true
  | _ => false

/-- Whether a call is a `log.Fatalf`. -/
def Op.isFatalf : Op → Bool
  | .fatalf _ _ => true
  | _ => false

/-- Rows requested by the UPDATEs of a trace, in order. -/
def rowsRequested (t : List Op) : List Nat :=
  t.filterMap fun
    | .exec u _ => some u.id
    | _ => none

/-- Program points of a goroutine running a session (lines of `session1`;
`session2` has the same shape). -/
inductive Pc where
  /-- The `go` statement has not run. -/
  | notStarted
  /-- Before `sql.Open`. -/
  | atOpen
  /-- Before `db.Begin`; `db.Close` is deferred. -/
  | atBegin
  /-- Before the first `tx.Exec`; `tx.Rollback` is deferred. -/
  | atExec1
  /-- First UPDATE sent to the store, no answer yet. -/
  | inExec1
  /-- Before `time.Sleep`. -/
  | atSleep
  /-- Before the second `tx.Exec`. -/
  | atExec2
  /-- Second UPDATE sent to the store, no answer yet. -/
  | inExec2
  /-- Before `tx.Commit`. -/
  | atCommit
  /-- Returning: deferred `tx.Rollback` is next. -/
  | atRollback
  /-- Returning: deferred `db.Close` is next. -/
  | atClose
  /-- Session function returned; deferred `wg.Done` of the goroutine is next. -/
  | returned
  /-- Goroutine ended. -/
  | done
  /-- The session called `log.Fatalf`. -/
  | fatal
  deriving DecidableEq, Repr

/-- One goroutine: program counter, calls made so far, and how many times a
`go` statement started it. -/
structure Sess where
  pc : Pc
  trace : List Op
  launches : Nat
  deriving DecidableEq, Repr

/-- Program points of `simulateDeadlock` (lines 49-64). -/
inductive MainPc where
  /-- Before `wg.Add(2)`. -/
  | atAdd
  /-- Before the first `go` statement. -/
  | atGo1
  /-- Before the second `go` statement. -/
  | atGo2
  /-- At `wg.Wait()`. -/
  | atWait
  /-- After `wg.Wait()`: `simulateDeadlock` returned. -/
  | returned
  deriving DecidableEq, Repr

/-- Exclusive row locks of table `deadlock_test`: the transaction holding rows 1 and 2. -/
structure Locks where
  row1 : Option SessionId
  row2 : Option SessionId
  deriving DecidableEq, Repr

/-- Holder of the lock of a row. -/
def Locks.holder (l : Locks) (row : Nat) : Option SessionId :=
  if row = 1 then l.row1 else if row = 2 then l.row2 else none

/-- Whether the store can grant the lock of `row` to `i`: nobody else holds it. -/
def Locks.grantable (l : Locks) (row : Nat) (i : SessionId) : Bool :=
  l.holder row = none || l.holder row = some i

/-- Grant the lock of `row` to `i`. -/
def Locks.acquire (l : Locks) (row : Nat) (i : SessionId) : Locks :=
  if row = 1 then { l with row1 := some i }
  else if row = 2 then { l with row2 := some i }
  else l

/-- End of the transaction of `i`: all its locks are released. -/
def Locks.release (l : Locks) (i : SessionId) : Locks :=
  { row1 := if l.row1 = some i then none else l.row1
    row2 := if l.row2 = some i then none else l.row2 }

/-- State of the process. -/
structure Sys where
  main : MainPc
  wg : Int
  s1 : Sess
  s2 : Sess
  locks : Locks
  exited : Bool
  deriving DecidableEq, Repr

/-- State when `simulateDeadlock` is called. -/
def init : Sys :=
  { main := .atAdd, wg := 0, s1 := ⟨.notStarted, [], 0⟩, s2 := ⟨.notStarted, [], 0⟩,
    locks := ⟨none, none⟩, exited := false }

/-- Goroutine of a session. -/
def Sys.sess (s : Sys) : SessionId → Sess
  | .s1 => s.s1
  | .s2 => s.s2

/-- Replace the goroutine of a session. -/
def Sys.setSess (s : Sys) (i : SessionId) (x : Sess) : Sys :=
  match i with
  | .s1 => { s with s1 := x }
  | .s2 => { s with s2 := x }

/-- Session `i` moves to `pc` after making the calls `ops`. -/
def advance (s : Sys) (i : SessionId) (pc : Pc) (ops : List Op) : Sys :=
  s.setSess i { (s.sess i) with pc := pc, trace := (s.sess i).trace ++ ops }

/-- Session `i` makes the calls `ops` and then calls `log.Fatalf`: the process exits. -/
def fatalStep (s : Sys) (i : SessionId) (ops : List Op) (format : String) (err : GoError) : Sys :=
  { advance s i .fatal (ops ++ [Op.fatalf format err]) with exited := true }

/-- Statement `go func() { defer wg.Done(); session(connStr) }()`. -/
def launch (s : Sys) (i : SessionId) : Sys :=
  s.setSess i { (s.sess i) with pc := .atOpen, launches := (s.sess i).launches + 1 }

/-- Format of the Fatalf after a failed `sql.Open`. -/
def connectFormat : SessionId → String
  | .s1 => "Session1: Failed to connect: %v"
  | .s2 => "Session2: Failed to connect: %v"

/-- Format of the Fatalf after a failed `db.Begin`. -/
def beginFormat : SessionId → String
  | .s1 => "Session1: Failed to begin transaction: %v"
  | .s2 => "Session2: Failed to begin transaction: %v"

/-- Format of the Fatalf after a failed first UPDATE. -/
def lockFormat : SessionId → String
  | .s1 => "Session1: Failed to lock row 1: %v"
  | .s2 => "Session2: Failed to lock row 2: %v"

/-- Format of the Fatalf after a failed Commit. -/
def commitFormat : SessionId → String
  | .s1 => "Session1: Failed to commit: %v"
  | .s2 => "Session2: Failed to commit: %v"

/-- Steps of the process. -/
inductive Label where
  /-- Next statement of `simulateDeadlock`. -/
  | main
  /-- Next statement of session `i` that needs no answer from the store:
  sending an UPDATE, the pause, a deferred call. -/
  | sess (i : SessionId)
  /-- The store answers the pending call of session `i`. -/
  | reply (i : SessionId) (err : Option GoError)
  deriving DecidableEq, Repr

/-- Steps of `simulateDeadlock`; `wg.Wait()` is passed only when the counter is 0. -/
def simulateDeadlockStep (s : Sys) : Option Sys :=
  match s.main with
  | .atAdd => some { s with wg := s.wg + 2, main := .atGo1 }
  | .atGo1 => some { launch s .s1 with main := .atGo2 }
  | .atGo2 => some { launch s .s2 with main := .atWait }
  | .atWait => if s.wg = 0 then some { s with main := .returned } else none
  | .returned => none

/-- Steps of session `i` that need no answer from the store. -/
def sessStep (s : Sys) (i : SessionId) : Option Sys :=
  match (s.sess i).pc with
  | .atExec1 => some (advance s i .inExec1 [])
  | .atSleep => some (advance s i .atExec2 [Op.sleep (2 * second)])
  | .atExec2 => some (advance s i .inExec2 [])
  | .atRollback =>
      some { advance s i .atClose [Op.rollback] with locks := s.locks.release i }
  | .atClose => some (advance s i .returned [Op.dbClose])
  | .returned => some { advance s i .done [] with wg := s.wg - 1 }
  | _ => none

/-- Steps of session `i` in which the store answers its pending call with `err`.
An UPDATE is answered without error only when the row lock can be granted;
until then the session waits. -/
def replyStep (s : Sys) (i : SessionId) (err : Option GoError) : Option Sys :=
  match (s.sess i).pc with
  | .atOpen =>
      match err with
      | some e => some (fatalStep s i [Op.sqlOpen err] (connectFormat i) e)
      | none => some (advance s i .atBegin [Op.sqlOpen none])
  | .atBegin =>
      match err with
      | some e => some (fatalStep s i [Op.begin err] (beginFormat i) e)
      | none => some (advance s i .atExec1 [Op.begin none])
  | .inExec1 =>
      match err with
      | some e => some (fatalStep s i [Op.exec (firstUpdate i) err] (lockFormat i) e)
      | none =>
          if s.locks.grantable (firstUpdate i).id i then
            some { advance s i .atSleep [Op.exec (firstUpdate i) none] with
                   locks := s.locks.acquire (firstUpdate i).id i }
          else none
  | .inExec2 =>
      match err with
      | some e =>
          some (advance s i .atRollback
            [Op.exec (secondUpdate i) err, Op.printf (deadlockFormat i) e])
      | none =>
          if s.locks.grantable (secondUpdate i).id i then
            some { advance s i .atCommit [Op.exec (secondUpdate i) none] with
                   locks := s.locks.acquire (secondUpdate i).id i }
          else none
  | .atCommit =>
      match err with
      | some e => some (fatalStep s i [Op.commit err] (commitFormat i) e)
      | none =>
          some { advance s i .atRollback [Op.commit none] with locks := s.locks.release i }
  | _ => none

/-- One step of the process; after `os.Exit` nothing runs. -/
def step (s : Sys) (l : Label) : Option Sys :=
  if s.exited then none
  else
    match l with
    | .main => simulateDeadlockStep s
    | .sess i => sessStep s i
    | .reply i err => replyStep s i err

/-- Run a sequence of steps; `none` when one of them cannot be taken. -/
def run (s : Sys) : List Label → Option Sys
  | [] => some s
  | l :: ls =>
      match step s l with
      | none => none
      | some s' => run s' ls

/-- Row of the UPDATE a session has sent and that is not answered yet. -/
def pendingRow (i : SessionId) : Pc → Option Nat
  | .inExec1 => some (firstUpdate i).id
  | .inExec2 => some (secondUpdate i).id
  | _ => none

/-- Edge of the wait-for graph: `i` has a pending UPDATE on a row locked by `j`. -/
def waitsFor (s : Sys) (i j : SessionId) : Bool :=
  match pendingRow i (s.sess i).pc with
  | some row => i != j && s.locks.holder row == some j
  | none => false

/-- Answers with an error among a sequence of steps, in order. -/
def rejections (ls : List Label) : List (SessionId × GoError) :=
  ls.filterMap fun
    | .reply i (some e) => some (i, e)
    | _ => none

/-- No step can be taken. -/
def Terminal (s : Sys) : Prop := ∀ l, step s l = none

/-! ## Health check of the REST layer -/

/-- Go `map[string]string` as an association list with distinct keys. -/
abbrev StatusMap := List (String × String)

/-- Assignment `m[k] = v`. -/
def StatusMap.set (m : StatusMap) (k v : String) : StatusMap :=
  if m.any (fun p => p.1 == k) then m.map (fun p => if p.1 = k then (k, v) else p)
  else m ++ [(k, v)]

/-- Lookup `m[k]`. -/
def StatusMap.get? (m : StatusMap) (k : String) : Option String :=
  (m.find? (fun p => p.1 == k)).map (fun p => p.2)

/-- Keys of a map. -/
def StatusMap.keys (m : StatusMap) : List String := m.map (fun p => p.1)

/-- Go `http.StatusOK`. -/
def statusOK : Nat := 200

/-- Go `http.StatusServiceUnavailable`. -/
def statusServiceUnavailable : Nat := 503

/-- What `healthCheckHandler` writes: header, status code, and the encoded map. -/
structure HealthResponse where
  contentType : String
  code : Nat
  body : StatusMap
  deriving DecidableEq, Repr

/-- Source `healthCheckHandler` (go-server/main.go, lines 183-210); the two
arguments are the results of `primaryDB.Ping()` and `replicaDB.Ping()`. -/
def healthCheckHandler (primaryErr replicaErr : Option GoError) : HealthResponse :=
  let status : StatusMap := [("primary", "up"), ("replica", "up")]
  let httpStatus := statusOK
  let (status, httpStatus) :=
    match primaryErr with
    | some e => (status.set "primary" ("down: " ++ e.msg), statusServiceUnavailable)
    | none => (status, httpStatus)
  let (status, httpStatus) :=
    match replicaErr with
    | some e => (status.set "replica" ("down: " ++ e.msg), statusServiceUnavailable)
    | none => (status, httpStatus)
  { contentType := "application/json", code := httpStatus, body := status }

/-! ## Invariants of the process view -/

/-- Errors returned by the store among the calls of a trace, in order. -/
def errs (t : List Op) : List GoError :=
  t.filterMap fun
    | .sqlOpen (some e) => some e
    | .begin (some e) => some e
    | .exec _ (some e) => some e
    | .commit (some e) => some e
    | _ => none

/-- Calls of a session up to the granted first UPDATE. -/
def lockedTrace (i : SessionId) : List Op :=
  [Op.sqlOpen none, Op.begin none, Op.exec (firstUpdate i) none]

/-- Calls of a session whose Commit succeeded, up to the Commit. -/
def committedTrace (i : SessionId) : List Op :=
  lockedTrace i ++ [Op.sleep (2 * second), Op.exec (secondUpdate i) none, Op.commit none]

/-- Calls of a session whose second UPDATE failed with `e`, up to the log line. -/
def abortedTrace (i : SessionId) (e : GoError) : List Op :=
  lockedTrace i ++
    [Op.sleep (2 * second), Op.exec (secondUpdate i) (some e), Op.printf (deadlockFormat i) e]

/-- Calls of a session that ended in `log.Fatalf` with error `e`. -/
def FatalTrace (i : SessionId) (e : GoError) (t : List Op) : Prop :=
  t = [Op.sqlOpen (some e), Op.fatalf (connectFormat i) e]
  ∨ t = [Op.sqlOpen none, Op.begin (some e), Op.fatalf (beginFormat i) e]
  ∨ t = [Op.sqlOpen none, Op.begin none, Op.exec (firstUpdate i) (some e),
         Op.fatalf (lockFormat i) e]
  ∨ t = lockedTrace i ++ [Op.sleep (2 * second), Op.exec (secondUpdate i) none,
         Op.commit (some e), Op.fatalf (commitFormat i) e]

/-- Calls of a session on one of its two returning paths, followed by `tail`. -/
def ReturningTrace (i : SessionId) (tail t : List Op) : Prop :=
  t = committedTrace i ++ tail ∨ ∃ e, t = abortedTrace i e ++ tail

/-- The calls a session has made are the ones its program counter implies. -/
def Shape (i : SessionId) (x : Sess) : Prop :=
  match x.pc with
  | .notStarted => x.trace = []
  | .atOpen => x.trace = []
  | .atBegin => x.trace = [Op.sqlOpen none]
  | .atExec1 => x.trace = [Op.sqlOpen none, Op.begin none]
  | .inExec1 => x.trace = [Op.sqlOpen none, Op.begin none]
  | .atSleep => x.trace = lockedTrace i
  | .atExec2 => x.trace = lockedTrace i ++ [Op.sleep (2 * second)]
  | .inExec2 => x.trace = lockedTrace i ++ [Op.sleep (2 * second)]
  | .atCommit =>
      x.trace = lockedTrace i ++ [Op.sleep (2 * second), Op.exec (secondUpdate i) none]
  | .atRollback => ReturningTrace i [] x.trace
  | .atClose => ReturningTrace i [Op.rollback] x.trace
  | .returned => ReturningTrace i [Op.rollback, Op.dbClose] x.trace
  | .done => ReturningTrace i [Op.rollback, Op.dbClose] x.trace
  | .fatal => ∃ e, FatalTrace i e x.trace

/-- Whether a session holds the lock of the row of its first UPDATE: from the
grant to the end of its transaction. -/
def holdsFirst (x : Sess) : Bool :=
  match x.pc with
  | .atSleep => true
  | .atExec2 => true
  | .inExec2 => true
  | .atCommit => true
  | .atRollback => !(x.trace.any Op.isCommit)
  | _ => false

/-- Whether a session holds the lock of the row of its second UPDATE. -/
def holdsSecond (x : Sess) : Bool :=
  match x.pc with
  | .atCommit => true
  | _ => false

/-- Locks implied by the program counters of session 1 (`x`) and session 2
(`y`): row 1 is the first row of session 1 and the second of session 2, row 2
the other way round. -/
def expectedLocks (x y : Sess) : Locks :=
  { row1 := if holdsFirst x then some .s1 else if holdsSecond y then some .s2 else none
    row2 := if holdsFirst y then some .s2 else if holdsSecond x then some .s1 else none }

/-- Lock table of a running process: it is the expected one and no row has two holders. -/
def LockInv (l : Locks) (x y : Sess) : Prop :=
  l = expectedLocks x y
    ∧ ¬ (holdsFirst x = true ∧ holdsSecond y = true)
    ∧ ¬ (holdsFirst y = true ∧ holdsSecond x = true)

/-- Number of goroutines that ended. -/
def doneCount (x y : Sess) : Int :=
  (if x.pc = .done then 1 else 0) + (if y.pc = .done then 1 else 0)

/-- Relation between `simulateDeadlock`, the wait-group counter and the goroutines. -/
def MainInv (m : MainPc) (wg : Int) (x y : Sess) : Prop :=
  match m with
  | .atAdd =>
      wg = 0 ∧ x.pc = .notStarted ∧ y.pc = .notStarted ∧ x.launches = 0 ∧ y.launches = 0
  | .atGo1 =>
      wg = 2 ∧ x.pc = .notStarted ∧ y.pc = .notStarted ∧ x.launches = 0 ∧ y.launches = 0
  | .atGo2 =>
      wg = 2 - doneCount x y ∧ x.pc ≠ .notStarted ∧ y.pc = .notStarted
        ∧ x.launches = 1 ∧ y.launches = 0
  | .atWait =>
      wg = 2 - doneCount x y ∧ x.pc ≠ .notStarted ∧ y.pc ≠ .notStarted
        ∧ x.launches = 1 ∧ y.launches = 1
  | .returned =>
      wg = 0 ∧ x.pc = .done ∧ y.pc = .done ∧ x.launches = 1 ∧ y.launches = 1

/-- Invariant of the process. -/
structure Inv (s : Sys) : Prop where
  main : MainInv s.main s.wg s.s1 s.s2
  shape1 : Shape .s1 s.s1
  shape2 : Shape .s2 s.s2
  locks : s.exited = false → LockInv s.locks s.s1 s.s2
  exit : s.exited = true ↔ (s.s1.pc = .fatal ∨ s.s2.pc = .fatal)

/-- Counter of the wait group after step `l` from `s`: `wg.Add(2)` adds 2, the
deferred `wg.Done()` of a goroutine whose session returned subtracts 1, and
no other step changes it. -/
def wgAfter (s : Sys) : Label → Int
  | .main => if s.main = .atAdd then s.wg + 2 else s.wg
  | .sess i => if (s.sess i).pc = .returned then s.wg - 1 else s.wg
  | .reply _ _ => s.wg

/-- First UPDATE of the session granted, second UPDATE not answered yet. -/
def awaitsSecond (x : Sess) : Bool :=
  match x.pc with
  | .atSleep => true
  | .atExec2 => true
  | .inExec2 => true
  | _ => false

/-- Errors the store answered to session `j` in a sequence of steps, in order. -/
def rejectionsOf (j : SessionId) (ls : List Label) : List GoError :=
  (rejections ls).filterMap fun p => if p.1 = j then some p.2 else none

/-- Facts kept by every step once both first UPDATEs have been granted with no
transaction ended: a session whose second UPDATE is granted got the row from
a session that was refused. -/
structure Contended (s : Sys) : Prop where
  inv : Inv s
  first1 : Op.exec (firstUpdate .s1) none ∈ s.s1.trace
  first2 : Op.exec (firstUpdate .s2) none ∈ s.s2.trace
  second1 : Op.exec (secondUpdate .s1) none ∈ s.s1.trace → errs s.s2.trace ≠ []
  second2 : Op.exec (secondUpdate .s2) none ∈ s.s2.trace → errs s.s1.trace ≠ []

/-- Bound on the number of steps `simulateDeadlock` can still take. -/
def MainPc.fuel : MainPc → Nat
  | .atAdd => 4
  | .atGo1 => 3
  | .atGo2 => 2
  | .atWait => 1
  | .returned => 0

/-- Bound on the number of steps a goroutine can still take. -/
def Pc.fuel : Pc → Nat
  | .notStarted => 11
  | .atOpen => 11
  | .atBegin => 10
  | .atExec1 => 9
  | .inExec1 => 8
  | .atSleep => 7
  | .atExec2 => 6
  | .inExec2 => 5
  | .atCommit => 4
  | .atRollback => 3
  | .atClose => 2
  | .returned => 1
  | .done => 0
  | .fatal => 0

/-- Bound on the number of steps the process can still take. -/
def Sys.fuel (s : Sys) : Nat := s.main.fuel + s.s1.pc.fuel + s.s2.pc.fuel

/-! ### Concrete runs -/

/-- Error used in the concrete runs: a lost connection. -/
def connReset : GoError := ⟨.connection, "connection reset"⟩

/-- Error used in the concrete runs: the store reports a deadlock. -/
def deadlockErr : GoError := ⟨.deadlock, "deadlock detected"⟩

/-- Steps that start both goroutines: `wg.Add(2)` and the two `go` statements. -/
def startBoth : List Label := [.main, .main, .main]

/-- Steps of session `i` from its start to its granted first UPDATE. -/
def lockFirst (i : SessionId) : List Label :=
  [.reply i none, .reply i none, .sess i, .reply i none]

/-- Both sessions get their first row, pause, and send their second UPDATE. -/
def deadlockRun : List Label :=
  startBoth ++ lockFirst .s1 ++ lockFirst .s2 ++ [.sess .s1, .sess .s1, .sess .s2, .sess .s2]

/-- State reached by `deadlockRun`. -/
def deadlockState : Sys :=
  { main := .atWait, wg := 2,
    s1 := ⟨.inExec2, lockedTrace .s1 ++ [Op.sleep (2 * second)], 1⟩,
    s2 := ⟨.inExec2, lockedTrace .s2 ++ [Op.sleep (2 * second)], 1⟩,
    locks := ⟨some .s1, some .s2⟩, exited := false }

/-- From the deadlock: the store refuses session 1, session 1 rolls back and
returns, session 2 gets row 1, commits and returns, `wg.Wait()` is passed. -/
def resolutionRun : List Label :=
  [.reply .s1 (some deadlockErr), .sess .s1, .reply .s2 none, .reply .s2 none,
   .sess .s1, .sess .s1, .sess .s2, .sess .s2, .sess .s2, .main]

/-- State reached by `resolutionRun` from `deadlockState`. -/
def resolvedState : Sys :=
  { main := .returned, wg := 0,
    s1 := ⟨.done, abortedTrace .s1 deadlockErr ++ [Op.rollback, Op.dbClose], 1⟩,
    s2 := ⟨.done, committedTrace .s2 ++ [Op.rollback, Op.dbClose], 1⟩,
    locks := ⟨none, none⟩, exited := false }

/-- From the deadlock: the store refuses session 2, session 2 rolls back and
returns, session 1 gets row 2, commits and returns, `wg.Wait()` is passed. -/
def resolutionRun2 : List Label :=
  [.reply .s2 (some deadlockErr), .sess .s2, .reply .s1 none, .reply .s1 none,
   .sess .s2, .sess .s2, .sess .s1, .sess .s1, .sess .s1, .main]

/-- State reached by `resolutionRun2` from `deadlockState`. -/
def resolvedState2 : Sys :=
  { main := .returned, wg := 0,
    s1 := ⟨.done, committedTrace .s1 ++ [Op.rollback, Op.dbClose], 1⟩,
    s2 := ⟨.done, abortedTrace .s2 deadlockErr ++ [Op.rollback, Op.dbClose], 1⟩,
    locks := ⟨none, none⟩, exited := false }

/-! ## Theorems: sequential view -/

/-- The text of a failed health entry is never the text of a healthy one. -/
theorem down_ne_up (m : String) : "down: " ++ m ≠ "up" := by
  intro h
  have h2 := congrArg String.data h
  simp [String.data_append] at h2

/-- On every path on which Begin and the first UPDATE succeeded, the session
issues a Commit or a Rollback. -/
theorem release_after_first_lock (i : SessionId) (r : Responses)
    (hb : Op.begin none ∈ (session i r).trace)
    (hx : Op.exec (firstUpdate i) none ∈ (session i r).trace) :
    Op.rollback ∈ (session i r).trace ∨ ∃ c, Op.commit c ∈ (session i r).trace := by
  rcases r with ⟨o, b, x, y, c⟩
  revert hb hx
  cases i <;> cases o <;> cases b <;> cases x <;> cases y <;> cases c <;>
    simp [session, session1, session2, fatalf, ret, firstUpdate]

/-- C1 (code defect): when the first UPDATE fails after a successful Begin, the
session makes the calls Open, Begin, UPDATE (failed), Fatalf and the process
exits with code 1: the transaction is begun, and neither Commit nor the
deferred Rollback is issued before the session ends. -/
theorem fatalf_skips_rollback (i : SessionId) (e : GoError) :
    (session i ⟨none, none, some e, none, none⟩).trace
        = [Op.sqlOpen none, Op.begin none, Op.exec (firstUpdate i) (some e),
           Op.fatalf (lockFormat i) e]
      ∧ Op.begin none ∈ (session i ⟨none, none, some e, none, none⟩).trace
      ∧ Op.rollback ∉ (session i ⟨none, none, some e, none, none⟩).trace
      ∧ (∀ c, Op.commit c ∉ (session i ⟨none, none, some e, none, none⟩).trace)
      ∧ (session i ⟨none, none, some e, none, none⟩).ending = Ending.exited 1 := by
  cases i <;> simp [session, session1, session2, fatalf, ret, firstUpdate, lockFormat]

/-- C2: when `sql.Open`, `db.Begin` and the first UPDATE succeed and the store
answers the second UPDATE with an error, the session makes exactly the calls
Open, Begin, UPDATE, Sleep, UPDATE (failed), Printf, Rollback, Close, and
returns: two UPDATEs in all and none after the failed one, no Commit, one
Rollback, no Fatalf. -/
theorem abort_on_rejected_second_lock (i : SessionId) (r : Responses) (e : GoError)
    (ho : r.openErr = none) (hb : r.beginErr = none) (h1 : r.exec1Err = none)
    (h2 : r.exec2Err = some e) :
    (session i r).trace =
        [Op.sqlOpen none, Op.begin none, Op.exec (firstUpdate i) none, Op.sleep (2 * second),
         Op.exec (secondUpdate i) (some e), Op.printf (deadlockFormat i) e,
         Op.rollback, Op.dbClose]
      ∧ (session i r).trace.countP Op.isExec = 2
      ∧ ((session i r).trace.drop 5).countP Op.isExec = 0
      ∧ (∀ c, Op.commit c ∉ (session i r).trace)
      ∧ (session i r).trace.count Op.rollback = 1
      ∧ (session i r).trace.countP Op.isFatalf = 0
      ∧ (session i r).ending = Ending.returned := by
  rcases r with ⟨o, b, x, y, c⟩
  simp only at ho hb h1 h2
  subst ho hb h1 h2
  cases i <;>
    simp [session, session1, session2, fatalf, ret, firstUpdate, secondUpdate,
      deadlockFormat, Op.isExec, Op.isFatalf]

/-- Witness of C2: each session with a deadlock reported on its second UPDATE. -/
theorem abort_on_rejected_second_lock_witness :
    ((session1 ⟨none, none, none, some ⟨.deadlock, "deadlock detected"⟩, none⟩).trace =
        [Op.sqlOpen none, Op.begin none, Op.exec ⟨"Session1", 1⟩ none, Op.sleep (2 * second),
         Op.exec ⟨"Session1", 2⟩ (some ⟨.deadlock, "deadlock detected"⟩),
         Op.printf "Session1: Deadlock detected: %v" ⟨.deadlock, "deadlock detected"⟩,
         Op.rollback, Op.dbClose]
      ∧ (session1 ⟨none, none, none, some ⟨.deadlock, "deadlock detected"⟩, none⟩).ending
          = Ending.returned)
    ∧ ((session2 ⟨none, none, none, some ⟨.deadlock, "deadlock detected"⟩, none⟩).trace =
        [Op.sqlOpen none, Op.begin none, Op.exec ⟨"Session2", 2⟩ none, Op.sleep (2 * second),
         Op.exec ⟨"Session2", 1⟩ (some ⟨.deadlock, "deadlock detected"⟩),
         Op.printf "Session2: Deadlock detected: %v" ⟨.deadlock, "deadlock detected"⟩,
         Op.rollback, Op.dbClose]
      ∧ (session2 ⟨none, none, none, some ⟨.deadlock, "deadlock detected"⟩, none⟩).ending
          = Ending.returned) :=
  have a := abort_on_rejected_second_lock .s1
    ⟨none, none, none, some ⟨.deadlock, "deadlock detected"⟩, none⟩
    ⟨.deadlock, "deadlock detected"⟩ rfl rfl rfl rfl
  have b := abort_on_rejected_second_lock .s2
    ⟨none, none, none, some ⟨.deadlock, "deadlock detected"⟩, none⟩
    ⟨.deadlock, "deadlock detected"⟩ rfl rfl rfl rfl
  ⟨⟨a.1, a.2.2.2.2.2.2⟩, ⟨b.1, b.2.2.2.2.2.2⟩⟩

/-- C3: for every combination of answers of the store: (1) a Commit is issued
exactly when `sql.Open`, `db.Begin` and both UPDATEs are answered without
error; (2) in terms of the calls made, exactly when Begin and both UPDATEs
occur with no error; (3) in that case the first six calls are Open, Begin,
UPDATE, Sleep, UPDATE, Commit, so the Commit follows both UPDATEs; (4) there
is at most one Commit; (5) both successful UPDATEs lie before the Commit;
(6) Commit succeeds exactly when every answer is without error, and then
rows 1 and 2 were both updated, without error, with the value of the
session; (7) every UPDATE of the run carries the value of the session. -/
theorem commit_iff_all_locks (i : SessionId) (r : Responses) :
    ((∃ c, Op.commit c ∈ (session i r).trace) ↔
        (r.openErr = none ∧ r.beginErr = none ∧ r.exec1Err = none ∧ r.exec2Err = none))
      ∧ ((∃ c, Op.commit c ∈ (session i r).trace) ↔
        (Op.begin none ∈ (session i r).trace
          ∧ Op.exec (firstUpdate i) none ∈ (session i r).trace
          ∧ Op.exec (secondUpdate i) none ∈ (session i r).trace))
      ∧ (r.openErr = none → r.beginErr = none → r.exec1Err = none → r.exec2Err = none →
          (session i r).trace.take 6 =
            [Op.sqlOpen none, Op.begin none, Op.exec (firstUpdate i) none,
             Op.sleep (2 * second), Op.exec (secondUpdate i) none, Op.commit r.commitErr])
      ∧ (session i r).trace.countP Op.isCommit ≤ 1
      ∧ ((∃ c, Op.commit c ∈ (session i r).trace) →
          Op.exec (firstUpdate i) none ∈ (session i r).trace.takeWhile (fun o => !o.isCommit)
          ∧ Op.exec (secondUpdate i) none ∈
              (session i r).trace.takeWhile (fun o => !o.isCommit))
      ∧ (Op.commit none ∈ (session i r).trace ↔ r = Responses.allOk)
      ∧ (Op.commit none ∈ (session i r).trace →
          Op.exec ⟨ownValue i, 1⟩ none ∈ (session i r).trace
          ∧ Op.exec ⟨ownValue i, 2⟩ none ∈ (session i r).trace)
      ∧ (∀ u err, Op.exec u err ∈ (session i r).trace → u.value = ownValue i) := by
  rcases r with ⟨o, b, x, y, c⟩
  cases i <;> cases o <;> cases b <;> cases x <;> cases y <;> cases c <;>
    simp [session, session1, session2, fatalf, ret, firstUpdate, secondUpdate,
      ownValue, Op.isCommit, List.takeWhile, Responses.allOk] <;>
    (rintro u err (⟨rfl, -⟩ | ⟨rfl, -⟩) <;> rfl)

/-- Witness of C3: when every call succeeds, each session commits, after having
updated rows 1 and 2 with its own value; when the second UPDATE fails, no
Commit is issued. -/
theorem commit_iff_all_locks_witness :
    ((∃ c, Op.commit c ∈ (session1 Responses.allOk).trace)
      ∧ (∃ c, Op.commit c ∈ (session2 Responses.allOk).trace))
    ∧ (Op.commit none ∈ (session1 Responses.allOk).trace
      ∧ Op.commit none ∈ (session2 Responses.allOk).trace)
    ∧ (Op.exec ⟨"Session1", 1⟩ none ∈ (session1 Responses.allOk).trace
      ∧ Op.exec ⟨"Session1", 2⟩ none ∈ (session1 Responses.allOk).trace)
    ∧ (Op.exec ⟨"Session2", 1⟩ none ∈ (session2 Responses.allOk).trace
      ∧ Op.exec ⟨"Session2", 2⟩ none ∈ (session2 Responses.allOk).trace)
    ∧ ¬ (∃ c, Op.commit c ∈ (session1 ⟨none, none, none, some connReset, none⟩).trace) :=
  have a := commit_iff_all_locks .s1 Responses.allOk
  have b := commit_iff_all_locks .s2 Responses.allOk
  have n := commit_iff_all_locks .s1 ⟨none, none, none, some connReset, none⟩
  ⟨⟨a.1.mpr ⟨rfl, rfl, rfl, rfl⟩, b.1.mpr ⟨rfl, rfl, rfl, rfl⟩⟩,
   ⟨a.2.2.2.2.2.1.mpr rfl, b.2.2.2.2.2.1.mpr rfl⟩,
   a.2.2.2.2.2.2.1 (a.2.2.2.2.2.1.mpr rfl),
   b.2.2.2.2.2.2.1 (b.2.2.2.2.2.1.mpr rfl),
   fun h => absurd (n.1.mp h).2.2.2 (by decide)⟩

/-- C7: session 1 requests rows 1 then 2, session 2 requests rows 2 then 1;
the second order is the reverse of the first, both have the same rows, no row
occurs twice; and at every point of every run the rows requested so far are
an initial segment of the order of the session. -/
theorem reversed_lock_orders :
    rowsRequested (session1 Responses.allOk).trace = [1, 2]
      ∧ rowsRequested (session2 Responses.allOk).trace = [2, 1]
      ∧ rowsRequested (session2 Responses.allOk).trace
          = (rowsRequested (session1 Responses.allOk).trace).reverse
      ∧ (∀ row, row ∈ rowsRequested (session1 Responses.allOk).trace ↔
          row ∈ rowsRequested (session2 Responses.allOk).trace)
      ∧ (rowsRequested (session1 Responses.allOk).trace).Nodup
      ∧ (rowsRequested (session2 Responses.allOk).trace).Nodup
      ∧ ∀ (i : SessionId) (r : Responses) (t rest : List Op),
          t ++ rest = (session i r).trace →
          ∃ more, rowsRequested t ++ more = rowsRequested (session i Responses.allOk).trace := by
  refine ⟨by decide, by decide, by decide, ?_, by decide, by decide, ?_⟩
  · intro row
    simp [session1, session2, ret, rowsRequested, Responses.allOk, or_comm]
  intro i r t rest h
  have key : ∃ more, rowsRequested (session i r).trace ++ more
      = rowsRequested (session i Responses.allOk).trace := by
    rcases r with ⟨o, b, x, y, c⟩
    cases i <;> cases o <;> cases b <;> cases x <;> cases y <;> cases c <;>
      simp [session, session1, session2, fatalf, ret, rowsRequested, Responses.allOk]
  obtain ⟨more, hm⟩ := key
  refine ⟨rowsRequested rest ++ more, ?_⟩
  rw [← hm, ← h]
  simp [rowsRequested, List.filterMap_append]

/-- C8: for every combination of answers of the store: (1) when `sql.Open`,
`db.Begin` and the first UPDATE are answered without error, the first five
calls are Open, Begin, UPDATE, Sleep of 2 seconds, UPDATE, no later call is a
pause, and the session pauses exactly once; (2) when one of these three
answers is an error the session never pauses; (3) and (4) the same in terms
of the calls made: the session pauses, once and at that place, exactly when
its first UPDATE occurs without error. -/
theorem delay_between_locks (i : SessionId) (r : Responses) :
    (r.openErr = none → r.beginErr = none → r.exec1Err = none →
        (session i r).trace.take 5 =
            [Op.sqlOpen none, Op.begin none, Op.exec (firstUpdate i) none,
             Op.sleep (2 * second), Op.exec (secondUpdate i) r.exec2Err]
          ∧ ((session i r).trace.drop 5).countP Op.isSleep = 0
          ∧ (session i r).trace.countP Op.isSleep = 1)
      ∧ ((r.openErr ≠ none ∨ r.beginErr ≠ none ∨ r.exec1Err ≠ none) →
          (session i r).trace.countP Op.isSleep = 0)
      ∧ (Op.exec (firstUpdate i) none ∈ (session i r).trace →
        ∃ err rest, (session i r).trace =
            [Op.sqlOpen none, Op.begin none, Op.exec (firstUpdate i) none,
             Op.sleep (2 * second), Op.exec (secondUpdate i) err] ++ rest
          ∧ rest.countP Op.isSleep = 0
          ∧ (session i r).trace.countP Op.isSleep = 1)
      ∧ (Op.exec (firstUpdate i) none ∉ (session i r).trace →
          (session i r).trace.countP Op.isSleep = 0) := by
  rcases r with ⟨o, b, x, y, c⟩
  refine ⟨?_, ?_, ?_, ?_⟩
  · cases i <;> cases o <;> cases b <;> cases x <;> cases y <;> cases c <;>
      simp [session, session1, session2, fatalf, ret, firstUpdate, secondUpdate, Op.isSleep]
  · cases i <;> cases o <;> cases b <;> cases x <;> cases y <;> cases c <;>
      simp [session, session1, session2, fatalf, ret, firstUpdate, secondUpdate, Op.isSleep]
  · intro h
    refine ⟨y, (session i ⟨o, b, x, y, c⟩).trace.drop 5, ?_⟩
    revert h
    cases i <;> cases o <;> cases b <;> cases x <;> cases y <;> cases c <;>
      simp [session, session1, session2, fatalf, ret, firstUpdate, secondUpdate, Op.isSleep]
  · cases i <;> cases o <;> cases b <;> cases x <;> cases y <;> cases c <;>
      simp [session, session1, session2, fatalf, ret, firstUpdate, secondUpdate, Op.isSleep]

/-- Witness of C8: when every call succeeds each session pauses once, for 2
seconds, between its two UPDATEs; when `db.Begin` fails it does not pause. -/
theorem delay_between_locks_witness :
    ((session1 Responses.allOk).trace.take 5 =
        [Op.sqlOpen none, Op.begin none, Op.exec ⟨"Session1", 1⟩ none,
         Op.sleep (2 * second), Op.exec ⟨"Session1", 2⟩ none]
      ∧ (session1 Responses.allOk).trace.countP Op.isSleep = 1)
    ∧ ((session2 Responses.allOk).trace.take 5 =
        [Op.sqlOpen none, Op.begin none, Op.exec ⟨"Session2", 2⟩ none,
         Op.sleep (2 * second), Op.exec ⟨"Session2", 1⟩ none]
      ∧ (session2 Responses.allOk).trace.countP Op.isSleep = 1)
    ∧ (session1 ⟨none, some connReset, none, none, none⟩).trace.countP Op.isSleep = 0
    ∧ (session2 ⟨none, none, some connReset, none, none⟩).trace.countP Op.isSleep = 0 :=
  have a := (delay_between_locks .s1 Responses.allOk).1 rfl rfl rfl
  have b := (delay_between_locks .s2 Responses.allOk).1 rfl rfl rfl
  ⟨⟨a.1, a.2.2⟩, ⟨b.1, b.2.2⟩,
   (delay_between_locks .s1 ⟨none, some connReset, none, none, none⟩).2.1
     (Or.inr (Or.inl (by decide))),
   (delay_between_locks .s2 ⟨none, none, some connReset, none, none⟩).2.1
     (Or.inr (Or.inr (by decide)))⟩

/-- C10: `healthCheckHandler` answers 200 exactly when both pings succeeded
and 503 otherwise; the body has exactly the keys "primary" and "replica"; the
value of a key is "up" exactly when the ping of that database succeeded, and
otherwise it is "down: " followed by the error text of that ping. -/
theorem health_status (p q : Option GoError) :
    ((healthCheckHandler p q).code = 200 ↔ (p = none ∧ q = none))
      ∧ (¬ (p = none ∧ q = none) → (healthCheckHandler p q).code = 503)
      ∧ (healthCheckHandler p q).body.keys = ["primary", "replica"]
      ∧ (∃ v, (healthCheckHandler p q).body.get? "primary" = some v
          ∧ (v = "up" ↔ p = none) ∧ (∀ e, p = some e → v = "down: " ++ e.msg))
      ∧ (∃ v, (healthCheckHandler p q).body.get? "replica" = some v
          ∧ (v = "up" ↔ q = none) ∧ (∀ e, q = some e → v = "down: " ++ e.msg)) := by
  cases p <;> cases q <;>
    simp [healthCheckHandler, StatusMap.set, StatusMap.get?, StatusMap.keys, statusOK,
      statusServiceUnavailable, down_ne_up]

/-! ## Theorems: process view -/

/-- Running two sequences of steps one after the other. -/
theorem run_append (s : Sys) (ls ls' : List Label) :
    run s (ls ++ ls') = (run s ls).bind (fun m => run m ls') := by
  induction ls generalizing s with
  | nil => simp [run]
  | cons l ls ih =>
    simp only [List.cons_append, run]
    cases h : step s l with
    | none => simp
    | some m => simpa using ih m

/-- The initial state satisfies the invariant. -/
theorem inv_init : Inv init := by
  constructor <;> simp [init, MainInv, Shape, LockInv, expectedLocks, holdsFirst, holdsSecond]

/-- Steps of `simulateDeadlock` keep the invariant. -/
theorem inv_simulateDeadlockStep {s s' : Sys} (h : Inv s) (hne : s.exited = false)
    (hs : simulateDeadlockStep s = some s') : Inv s' := by
  rcases s with ⟨m, wg, ⟨pc1, t1, n1⟩, ⟨pc2, t2, n2⟩, ⟨r1, r2⟩, ex⟩
  obtain ⟨hm, h1, h2, hl, he⟩ := h
  simp only at hne hm h1 h2 hl he
  subst hne
  simp only [true_implies] at hl
  cases m <;> simp [simulateDeadlockStep, launch, Sys.setSess, Sys.sess] at hs <;>
    simp only [MainInv] at hm
  · subst hs
    obtain ⟨rfl, rfl, rfl, rfl, rfl⟩ := hm
    refine ⟨?_, ?_, ?_, ?_, ?_⟩ <;> simp_all [MainInv]
  · subst hs
    obtain ⟨rfl, rfl, rfl, rfl, rfl⟩ := hm
    refine ⟨?_, ?_, ?_, ?_, ?_⟩ <;>
      simp_all [MainInv, LockInv, expectedLocks, Shape, doneCount, holdsFirst, holdsSecond]
  · subst hs
    obtain ⟨rfl, hp1, rfl, rfl, rfl⟩ := hm
    refine ⟨?_, ?_, ?_, ?_, ?_⟩ <;>
      simp_all [MainInv, LockInv, expectedLocks, Shape, doneCount, holdsFirst, holdsSecond]
  · obtain ⟨rfl, rfl⟩ := hs
    obtain ⟨hw, hp1, hp2, rfl, rfl⟩ := hm
    have hd : pc1 = .done ∧ pc2 = .done := by
      by_cases a : pc1 = .done <;> by_cases b : pc2 = .done <;> simp [doneCount, a, b] at hw
      exact ⟨a, b⟩
    obtain ⟨rfl, rfl⟩ := hd
    refine ⟨?_, h1, h2, fun _ => hl, he⟩
    simp [MainInv]

/-- Steps of session 1 that need no answer keep the invariant. -/
theorem inv_sessStep1 {s s' : Sys} (h : Inv s) (hne : s.exited = false)
    (hs : sessStep s .s1 = some s') : Inv s' := by
  rcases s with ⟨m, wg, ⟨pc1, t1, n1⟩, ⟨pc2, t2, n2⟩, ⟨r1, r2⟩, ex⟩
  obtain ⟨hm, h1, h2, hl, he⟩ := h
  simp only at hne hm h1 h2 hl he
  subst hne
  simp only [true_implies] at hl
  cases pc1 <;> simp [sessStep, advance, Sys.setSess, Sys.sess] at hs <;> subst hs <;>
    refine ⟨?_, ?_, h2, ?_, ?_⟩
  all_goals first
    | (cases m <;> simp_all [MainInv, doneCount]; done)
    | (simp_all [Shape]; done)
    | (simp_all [LockInv, expectedLocks, holdsFirst, holdsSecond]; done)
    | (simp only [Shape, ReturningTrace] at h1 ⊢
       rcases h1 with rfl | ⟨e, rfl⟩ <;> simp; done)
    | (simp only [Shape, ReturningTrace] at h1
       cases hf : holdsFirst ⟨pc2, t2, n2⟩ <;> cases hg : holdsSecond ⟨pc2, t2, n2⟩ <;>
       rcases h1 with rfl | ⟨e, rfl⟩ <;>
       simp_all [LockInv, expectedLocks, holdsFirst, holdsSecond, Locks.release,
         committedTrace, abortedTrace, lockedTrace, Op.isCommit]; done)
    | (cases m <;> simp_all [MainInv, doneCount] <;> (try split_ifs) <;> omega; done)

/-- Answers of the store to session 1 keep the invariant. -/
theorem inv_replyStep1 {s s' : Sys} {err : Option GoError} (h : Inv s)
    (hne : s.exited = false) (hs : replyStep s .s1 err = some s') : Inv s' := by
  rcases s with ⟨m, wg, ⟨pc1, t1, n1⟩, ⟨pc2, t2, n2⟩, ⟨r1, r2⟩, ex⟩
  obtain ⟨hm, h1, h2, hl, he⟩ := h
  simp only at hne hm h1 h2 hl he
  subst hne
  simp only [true_implies] at hl
  cases pc1 <;> cases err <;>
    simp [replyStep, advance, fatalStep, Sys.setSess, Sys.sess] at hs <;>
    obtain ⟨hgr, rfl⟩ := hs <;>
    refine ⟨?_, ?_, h2, ?_, ?_⟩
  all_goals first
    | (cases m <;> simp_all [MainInv, doneCount]; done)
    | (simp_all [Shape, ReturningTrace, FatalTrace, lockedTrace, committedTrace,
        abortedTrace]; done)
    | (simp_all [LockInv, expectedLocks, holdsFirst, holdsSecond]; done)
    | (simp only [Shape] at h1
       cases hf : holdsFirst ⟨pc2, t2, n2⟩ <;> cases hg : holdsSecond ⟨pc2, t2, n2⟩ <;>
       simp_all [LockInv, expectedLocks, holdsFirst, holdsSecond, Locks.release,
         Locks.grantable, Locks.holder, Locks.acquire, firstUpdate, secondUpdate,
         committedTrace, abortedTrace, lockedTrace, Op.isCommit]; done)

/-- Steps of session 2 that need no answer keep the invariant. -/
theorem inv_sessStep2 {s s' : Sys} (h : Inv s) (hne : s.exited = false)
    (hs : sessStep s .s2 = some s') : Inv s' := by
  rcases s with ⟨m, wg, ⟨pc1, t1, n1⟩, ⟨pc2, t2, n2⟩, ⟨r1, r2⟩, ex⟩
  obtain ⟨hm, h1, h2, hl, he⟩ := h
  simp only at hne hm h1 h2 hl he
  subst hne
  simp only [true_implies] at hl
  cases pc2 <;> simp [sessStep, advance, Sys.setSess, Sys.sess] at hs <;> subst hs <;>
    refine ⟨?_, h1, ?_, ?_, ?_⟩
  all_goals first
    | (cases m <;> simp_all [MainInv, doneCount]; done)
    | (simp_all [Shape]; done)
    | (simp_all [LockInv, expectedLocks, holdsFirst, holdsSecond]; done)
    | (simp only [Shape, ReturningTrace] at h2 ⊢
       rcases h2 with rfl | ⟨e, rfl⟩ <;> simp; done)
    | (simp only [Shape, ReturningTrace] at h2
       cases hf : holdsFirst ⟨pc1, t1, n1⟩ <;> cases hg : holdsSecond ⟨pc1, t1, n1⟩ <;>
       rcases h2 with rfl | ⟨e, rfl⟩ <;>
       simp_all [LockInv, expectedLocks, holdsFirst, holdsSecond, Locks.release,
         committedTrace, abortedTrace, lockedTrace, Op.isCommit]; done)
    | (cases m <;> simp_all [MainInv, doneCount] <;> (try split_ifs) <;> omega; done)

/-- Answers of the store to session 2 keep the invariant. -/
theorem inv_replyStep2 {s s' : Sys} {err : Option GoError} (h : Inv s)
    (hne : s.exited = false) (hs : replyStep s .s2 err = some s') : Inv s' := by
  rcases s with ⟨m, wg, ⟨pc1, t1, n1⟩, ⟨pc2, t2, n2⟩, ⟨r1, r2⟩, ex⟩
  obtain ⟨hm, h1, h2, hl, he⟩ := h
  simp only at hne hm h1 h2 hl he
  subst hne
  simp only [true_implies] at hl
  cases pc2 <;> cases err <;>
    simp [replyStep, advance, fatalStep, Sys.setSess, Sys.sess] at hs <;>
    obtain ⟨hgr, rfl⟩ := hs <;>
    refine ⟨?_, h1, ?_, ?_, ?_⟩
  all_goals first
    | (cases m <;> simp_all [MainInv, doneCount]; done)
    | (simp_all [Shape, ReturningTrace, FatalTrace, lockedTrace, committedTrace,
        abortedTrace]; done)
    | (simp_all [LockInv, expectedLocks, holdsFirst, holdsSecond]; done)
    | (simp only [Shape] at h2
       cases hf : holdsFirst ⟨pc1, t1, n1⟩ <;> cases hg : holdsSecond ⟨pc1, t1, n1⟩ <;>
       simp_all [LockInv, expectedLocks, holdsFirst, holdsSecond, Locks.release,
         Locks.grantable, Locks.holder, Locks.acquire, firstUpdate, secondUpdate,
         committedTrace, abortedTrace, lockedTrace, Op.isCommit]; done)

/-- Every step keeps the invariant. -/
theorem inv_step {s s' : Sys} {l : Label} (h : Inv s) (hs : step s l = some s') : Inv s' := by
  unfold step at hs
  split at hs
  · exact absurd hs (by simp)
  · rename_i hne
    have hne' : s.exited = false := by simpa using hne
    cases l with
    | main => exact inv_simulateDeadlockStep h hne' hs
    | sess i =>
      cases i
      · exact inv_sessStep1 h hne' hs
      · exact inv_sessStep2 h hne' hs
    | reply i err =>
      cases i
      · exact inv_replyStep1 h hne' hs
      · exact inv_replyStep2 h hne' hs

/-- Every run keeps the invariant. -/
theorem inv_run {ls : List Label} {s s' : Sys} (h : Inv s) (hs : run s ls = some s') :
    Inv s' := by
  induction ls generalizing s with
  | nil =>
    simp only [run, Option.some.injEq] at hs
    exact hs ▸ h
  | cons l ls ih =>
    simp only [run] at hs
    cases hl : step s l with
    | none => simp [hl] at hs
    | some m =>
      rw [hl] at hs
      exact ih (inv_step h hl) hs

/-- The counter of the wait group changes only at `wg.Add(2)` and at the
deferred `wg.Done()` of a goroutine whose session returned. -/
theorem wg_step {s s' : Sys} {l : Label} (hs : step s l = some s') :
    s'.wg = wgAfter s l := by
  unfold step at hs
  split at hs
  · exact absurd hs (by simp)
  · rcases s with ⟨m, wg, ⟨pc1, t1, n1⟩, ⟨pc2, t2, n2⟩, ⟨r1, r2⟩, ex⟩
    cases l with
    | main =>
      cases m <;> simp [simulateDeadlockStep, launch, Sys.setSess, Sys.sess] at hs <;>
        obtain ⟨hgr, rfl⟩ := hs <;> simp [wgAfter, Sys.sess]
    | sess i =>
      cases i
      · cases pc1 <;> simp [sessStep, advance, Sys.setSess, Sys.sess] at hs <;> subst hs <;>
          simp [wgAfter, Sys.sess]
      · cases pc2 <;> simp [sessStep, advance, Sys.setSess, Sys.sess] at hs <;> subst hs <;>
          simp [wgAfter, Sys.sess]
    | reply i err =>
      cases i
      · cases pc1 <;> cases err <;>
          simp [replyStep, advance, fatalStep, Sys.setSess, Sys.sess] at hs <;>
          obtain ⟨hgr, rfl⟩ := hs <;> simp [wgAfter, Sys.sess]
      · cases pc2 <;> cases err <;>
          simp [replyStep, advance, fatalStep, Sys.setSess, Sys.sess] at hs <;>
          obtain ⟨hgr, rfl⟩ := hs <;> simp [wgAfter, Sys.sess]

/-- C5: in every state `simulateDeadlock` can reach: the counter is 2 right
after `wg.Add(2)`, before any goroutine is started; session 1 has been
started exactly once as soon as the first `go` statement has run and
session 2 as soon as the second has, never before and never twice, so both
are started when `wg.Wait()` is reached; after `wg.Add(2)` the counter is 2
minus the number of goroutines that ended; it is never negative; every step
changes it only by the `+2` of `wg.Add(2)` or by the `-1` of the `wg.Done()`
of a session that returned; `wg.Wait()` is passed only when it is 0; and
`simulateDeadlock` has returned only if both sessions have. -/
theorem wait_barrier (ls : List Label) (s : Sys) (h : run init ls = some s) :
    (s.main = .atGo1 → s.wg = 2 ∧ s.s1.pc = .notStarted ∧ s.s2.pc = .notStarted)
      ∧ s.s1.launches = (if s.main = .atAdd ∨ s.main = .atGo1 then 0 else 1)
      ∧ s.s2.launches = (if s.main = .atWait ∨ s.main = .returned then 1 else 0)
      ∧ (s.s1.pc = .notStarted ↔ s.s1.launches = 0)
      ∧ (s.s2.pc = .notStarted ↔ s.s2.launches = 0)
      ∧ (s.main ≠ .atAdd → s.wg = 2 - doneCount s.s1 s.s2)
      ∧ 0 ≤ s.wg
      ∧ (∀ l s', step s l = some s' →
          s'.wg = wgAfter s l)
      ∧ (∀ s', s.main = .atWait → step s .main = some s' → s.wg = 0 ∧ s'.main = .returned)
      ∧ (s.main = .returned → s.s1.pc = .done ∧ s.s2.pc = .done ∧ s.wg = 0) := by
  have hi := (inv_run inv_init h).main
  refine ⟨?_, ?_, ?_, ?_, ?_, ?_, ?_, fun l s' hs => wg_step hs, ?_, ?_⟩
  · intro hm
    simp only [hm, MainInv] at hi
    exact ⟨hi.1, hi.2.1, hi.2.2.1⟩
  · cases hm : s.main <;> simp_all [MainInv]
  · cases hm : s.main <;> simp_all [MainInv]
  · cases hm : s.main <;> simp_all [MainInv]
  · cases hm : s.main <;> simp_all [MainInv]
  · cases hm : s.main <;> simp_all [MainInv, doneCount]
  · cases hm : s.main <;> simp only [hm, MainInv] at hi <;> obtain ⟨hw, -⟩ := hi <;>
      rw [hw] <;> (try simp only [doneCount]) <;> (try split_ifs) <;> omega
  · intro s' hm hs
    unfold step at hs
    split at hs
    · exact absurd hs (by simp)
    · simp only [simulateDeadlockStep, hm] at hs
      split at hs
      · rename_i hw
        simp only [Option.some.injEq] at hs
        subst hs
        exact ⟨hw, rfl⟩
      · exact absurd hs (by simp)
  · intro hm
    simp only [hm, MainInv] at hi
    exact ⟨hi.2.1, hi.2.2.1, hi.1⟩

/-- Witness of C5: the run through the deadlock and its resolution ends with
`simulateDeadlock` returned, both goroutines ended and the counter at 0. -/
theorem wait_barrier_witness :
    run init (deadlockRun ++ resolutionRun) = some resolvedState
      ∧ resolvedState.main = .returned
      ∧ resolvedState.s1.pc = .done ∧ resolvedState.s2.pc = .done ∧ resolvedState.wg = 0 :=
  ⟨by decide, by decide,
   (wait_barrier (deadlockRun ++ resolutionRun) resolvedState (by decide)).2.2.2.2.2.2.2.2.2
     (by decide)⟩

/-- A trace that is the start of the trace of a run is an initial segment of it. -/
theorem segment_of_take (i : SessionId) (r : Responses) (t : List Op)
    (h : (session i r).trace.take t.length = t) :
    ∃ r' rest, t ++ rest = (session i r').trace := by
  refine ⟨r, (session i r).trace.drop t.length, ?_⟩
  have h2 := List.take_append_drop t.length (session i r).trace
  rw [h] at h2
  exact h2

/-- The calls a goroutine has made are an initial segment of a run of its
session function; they are a complete run that returned once the session
has returned, and a complete run that exited once it called `log.Fatalf`. -/
theorem shape_sequential (i : SessionId) (x : Sess) (h : Shape i x) :
    (∃ r rest, x.trace ++ rest = (session i r).trace)
      ∧ ((x.pc = .returned ∨ x.pc = .done) → ∃ r, session i r = ⟨x.trace, Ending.returned⟩)
      ∧ (x.pc = .fatal → ∃ r, session i r = ⟨x.trace, Ending.exited 1⟩) := by
  rcases x with ⟨pc, t, n⟩
  cases pc <;> simp only [Shape, ReturningTrace, FatalTrace] at h
  case atRollback | atClose =>
    rcases h with rfl | ⟨e, rfl⟩
    · refine ⟨segment_of_take i Responses.allOk _ ?_, by simp, by simp⟩
      cases i <;> rfl
    · refine ⟨segment_of_take i ⟨none, none, none, some e, none⟩ _ ?_, by simp, by simp⟩
      cases i <;> rfl
  case returned | done =>
    rcases h with rfl | ⟨e, rfl⟩
    · refine ⟨segment_of_take i Responses.allOk _ ?_, fun _ => ⟨Responses.allOk, ?_⟩, by simp⟩
      · cases i <;> rfl
      · cases i <;> rfl
    · refine ⟨segment_of_take i ⟨none, none, none, some e, none⟩ _ ?_,
        fun _ => ⟨⟨none, none, none, some e, none⟩, ?_⟩, by simp⟩
      · cases i <;> rfl
      · cases i <;> rfl
  case fatal =>
    obtain ⟨e, rfl | rfl | rfl | rfl⟩ := h
    · refine ⟨segment_of_take i ⟨some e, none, none, none, none⟩ _ ?_, by simp,
        fun _ => ⟨⟨some e, none, none, none, none⟩, ?_⟩⟩ <;> cases i <;> rfl
    · refine ⟨segment_of_take i ⟨none, some e, none, none, none⟩ _ ?_, by simp,
        fun _ => ⟨⟨none, some e, none, none, none⟩, ?_⟩⟩ <;> cases i <;> rfl
    · refine ⟨segment_of_take i ⟨none, none, some e, none, none⟩ _ ?_, by simp,
        fun _ => ⟨⟨none, none, some e, none, none⟩, ?_⟩⟩ <;> cases i <;> rfl
    · refine ⟨segment_of_take i ⟨none, none, none, none, some e⟩ _ ?_, by simp,
        fun _ => ⟨⟨none, none, none, none, some e⟩, ?_⟩⟩ <;> cases i <;> rfl
  all_goals
    subst h
    refine ⟨segment_of_take i Responses.allOk _ ?_, by simp, by simp⟩
    cases i <;> rfl

/-- Link between the two views: in every state the process can reach, the
calls each goroutine has made are an initial segment of a run of its session
function, a complete returned run once the session has returned, and a
complete exited run once it called `log.Fatalf`. -/
theorem process_refines_sessions (ls : List Label) (s : Sys) (h : run init ls = some s)
    (i : SessionId) :
    (∃ r rest, (s.sess i).trace ++ rest = (session i r).trace)
      ∧ (((s.sess i).pc = .returned ∨ (s.sess i).pc = .done) →
          ∃ r, session i r = ⟨(s.sess i).trace, Ending.returned⟩)
      ∧ ((s.sess i).pc = .fatal → ∃ r, session i r = ⟨(s.sess i).trace, Ending.exited 1⟩) := by
  have hi := inv_run inv_init h
  cases i
  · exact shape_sequential .s1 s.s1 hi.shape1
  · exact shape_sequential .s2 s.s2 hi.shape2

/-- The errors in the trace of a session grow by exactly the error answers
the store gives to that session. -/
theorem errs_step {s s' : Sys} {l : Label} (j : SessionId) (hs : step s l = some s') :
    errs (s'.sess j).trace = errs (s.sess j).trace ++ rejectionsOf j [l] := by
  unfold step at hs
  split at hs
  · exact absurd hs (by simp)
  · rcases s with ⟨m, wg, ⟨pc1, t1, n1⟩, ⟨pc2, t2, n2⟩, ⟨r1, r2⟩, ex⟩
    cases l with
    | main =>
      cases m <;> simp [simulateDeadlockStep, launch, Sys.setSess, Sys.sess] at hs <;>
        obtain ⟨hgr, rfl⟩ := hs <;> cases j <;> simp [rejectionsOf, rejections, Sys.sess]
    | sess i =>
      cases i
      · cases pc1 <;> simp [sessStep, advance, Sys.setSess, Sys.sess] at hs <;> subst hs <;>
          cases j <;> simp [rejectionsOf, rejections, Sys.sess, errs]
      · cases pc2 <;> simp [sessStep, advance, Sys.setSess, Sys.sess] at hs <;> subst hs <;>
          cases j <;> simp [rejectionsOf, rejections, Sys.sess, errs]
    | reply i err =>
      cases i
      · cases pc1 <;> cases err <;>
          simp [replyStep, advance, fatalStep, Sys.setSess, Sys.sess] at hs <;>
          obtain ⟨hgr, rfl⟩ := hs <;> cases j <;>
          simp [rejectionsOf, rejections, Sys.sess, errs]
      · cases pc2 <;> cases err <;>
          simp [replyStep, advance, fatalStep, Sys.setSess, Sys.sess] at hs <;>
          obtain ⟨hgr, rfl⟩ := hs <;> cases j <;>
          simp [rejectionsOf, rejections, Sys.sess, errs]

/-- Error answers of a sequence of steps, one step at a time. -/
theorem rejectionsOf_cons (j : SessionId) (l : Label) (ls : List Label) :
    rejectionsOf j (l :: ls) = rejectionsOf j [l] ++ rejectionsOf j ls := by
  cases l with
  | main => simp [rejectionsOf, rejections]
  | sess i => simp [rejectionsOf, rejections]
  | reply i err =>
    cases err with
    | none => simp [rejectionsOf, rejections]
    | some e =>
      by_cases hij : i = j <;> simp [rejectionsOf, rejections, hij]

/-- The errors in the trace of a session after a run. -/
theorem errs_run {ls : List Label} {s s' : Sys} (j : SessionId) (hs : run s ls = some s') :
    errs (s'.sess j).trace = errs (s.sess j).trace ++ rejectionsOf j ls := by
  induction ls generalizing s with
  | nil =>
    simp only [run, Option.some.injEq] at hs
    subst hs
    simp [rejectionsOf, rejections]
  | cons l ls ih =>
    simp only [run] at hs
    cases hl : step s l with
    | none => simp [hl] at hs
    | some m =>
      rw [hl] at hs
      rw [ih hs, errs_step j hl, rejectionsOf_cons j l ls, List.append_assoc]

/-- A state of a running process in which no step can be taken is one in
which `simulateDeadlock` has returned. -/
theorem terminal_returned {s : Sys} (h : Inv s) (hne : s.exited = false) (ht : Terminal s) :
    s.main = .returned := by
  have a1 := ht (.reply .s1 (some connReset))
  have a2 := ht (.reply .s2 (some connReset))
  have b1 := ht (.sess .s1)
  have b2 := ht (.sess .s2)
  have c := ht .main
  rcases s with ⟨m, wg, ⟨pc1, t1, n1⟩, ⟨pc2, t2, n2⟩, ⟨r1, r2⟩, ex⟩
  obtain ⟨hm, h1, h2, hl, he⟩ := h
  simp only at hne hm he
  subst hne
  simp only [step, Bool.false_eq_true, if_false] at a1 a2 b1 b2 c
  cases pc1 <;> simp [replyStep, sessStep, Sys.sess] at a1 b1 <;>
    cases pc2 <;> simp [replyStep, sessStep, Sys.sess] at a2 b2 <;>
    cases m <;> simp [simulateDeadlockStep, MainInv, doneCount] at c hm he ⊢ <;> omega

/-- Errors of a trace extended by further calls. -/
theorem errs_append (t u : List Op) : errs (t ++ u) = errs t ++ errs u := by
  simp [errs, List.filterMap_append]

/-- Errors of a trace that starts with a call that succeeded or needs no answer. -/
theorem errs_ok (t : List Op) :
    errs (Op.sqlOpen none :: t) = errs t ∧ errs (Op.begin none :: t) = errs t
      ∧ (∀ u, errs (Op.exec u none :: t) = errs t) ∧ (∀ d, errs (Op.sleep d :: t) = errs t)
      ∧ (∀ f a, errs (Op.printf f a :: t) = errs t) ∧ (∀ f a, errs (Op.fatalf f a :: t) = errs t)
      ∧ errs (Op.commit none :: t) = errs t ∧ errs (Op.rollback :: t) = errs t
      ∧ errs (Op.dbClose :: t) = errs t := by
  simp [errs]

/-- Errors of a trace that starts with a call that failed. -/
theorem errs_err (e : GoError) (t : List Op) :
    errs (Op.sqlOpen (some e) :: t) = e :: errs t ∧ errs (Op.begin (some e) :: t) = e :: errs t
      ∧ (∀ u, errs (Op.exec u (some e) :: t) = e :: errs t)
      ∧ errs (Op.commit (some e) :: t) = e :: errs t := by
  simp [errs]

/-- Errors of the empty trace. -/
theorem errs_nil : errs [] = [] := rfl

/-- Answers of the store to session 1 keep the facts of `Contended`. -/
theorem contended_replyStep1 {s s' : Sys} {err : Option GoError} (h : Contended s)
    (hne : s.exited = false) (hs : replyStep s .s1 err = some s') :
    Op.exec (firstUpdate .s1) none ∈ s'.s1.trace
      ∧ Op.exec (firstUpdate .s2) none ∈ s'.s2.trace
      ∧ (Op.exec (secondUpdate .s1) none ∈ s'.s1.trace → errs s'.s2.trace ≠ [])
      ∧ (Op.exec (secondUpdate .s2) none ∈ s'.s2.trace → errs s'.s1.trace ≠ []) := by
  rcases s with ⟨m, wg, ⟨pc1, t1, n1⟩, ⟨pc2, t2, n2⟩, ⟨r1, r2⟩, ex⟩
  obtain ⟨⟨hm, h1, h2, hl, he⟩, f1, f2, g1, g2⟩ := h
  simp only at hne hm h1 h2 hl he f1 f2 g1 g2
  subst hne
  simp only [true_implies] at hl
  cases pc1 <;> cases err <;>
    simp [replyStep, advance, fatalStep, Sys.setSess, Sys.sess] at hs <;>
    obtain ⟨hgr, rfl⟩ := hs <;>
    simp only [Shape] at h1 <;> subst h1 <;>
    simp [firstUpdate, secondUpdate, lockedTrace, errs_append, errs_ok, errs_err, errs_nil]
      at f1 f2 g1 g2 ⊢ <;>
    simp [f2, g1, g2]
  simp only [LockInv, expectedLocks] at hl
  cases pc2 <;> simp only [Shape, ReturningTrace, FatalTrace] at h2
  case atRollback | atClose | returned | done =>
    rcases h2 with rfl | ⟨e, rfl⟩
    · simp [committedTrace, lockedTrace, secondUpdate] at g2
    · simp [abortedTrace, lockedTrace, errs_ok, errs_err]
  case fatal => simp at he
  all_goals
    subst h2
    simp [holdsFirst, holdsSecond, Locks.grantable, Locks.holder, secondUpdate, firstUpdate,
      lockedTrace] at hl hgr f2 <;>
    simp_all

/-- Answers of the store to session 2 keep the facts of `Contended`. -/
theorem contended_replyStep2 {s s' : Sys} {err : Option GoError} (h : Contended s)
    (hne : s.exited = false) (hs : replyStep s .s2 err = some s') :
    Op.exec (firstUpdate .s1) none ∈ s'.s1.trace
      ∧ Op.exec (firstUpdate .s2) none ∈ s'.s2.trace
      ∧ (Op.exec (secondUpdate .s1) none ∈ s'.s1.trace → errs s'.s2.trace ≠ [])
      ∧ (Op.exec (secondUpdate .s2) none ∈ s'.s2.trace → errs s'.s1.trace ≠ []) := by
  rcases s with ⟨m, wg, ⟨pc1, t1, n1⟩, ⟨pc2, t2, n2⟩, ⟨r1, r2⟩, ex⟩
  obtain ⟨⟨hm, h1, h2, hl, he⟩, f1, f2, g1, g2⟩ := h
  simp only at hne hm h1 h2 hl he f1 f2 g1 g2
  subst hne
  simp only [true_implies] at hl
  cases pc2 <;> cases err <;>
    simp [replyStep, advance, fatalStep, Sys.setSess, Sys.sess] at hs <;>
    obtain ⟨hgr, rfl⟩ := hs <;>
    simp only [Shape] at h2 <;> subst h2 <;>
    simp [firstUpdate, secondUpdate, lockedTrace, errs_append, errs_ok, errs_err, errs_nil]
      at f1 f2 g1 g2 ⊢ <;>
    simp [f1, g1, g2]
  simp only [LockInv, expectedLocks] at hl
  cases pc1 <;> simp only [Shape, ReturningTrace, FatalTrace] at h1
  case atRollback | atClose | returned | done =>
    rcases h1 with rfl | ⟨e, rfl⟩
    · simp [committedTrace, lockedTrace, secondUpdate] at g1
    · simp [abortedTrace, lockedTrace, errs_ok, errs_err]
  case fatal => simp at he
  all_goals
    subst h1
    simp [holdsFirst, holdsSecond, Locks.grantable, Locks.holder, secondUpdate, firstUpdate,
      lockedTrace] at hl hgr f1 <;>
    simp_all

/-- Steps that need no answer from the store keep the facts of `Contended`. -/
theorem contended_sessStep {s s' : Sys} {i : SessionId} (h : Contended s)
    (hs : sessStep s i = some s') :
    Op.exec (firstUpdate .s1) none ∈ s'.s1.trace
      ∧ Op.exec (firstUpdate .s2) none ∈ s'.s2.trace
      ∧ (Op.exec (secondUpdate .s1) none ∈ s'.s1.trace → errs s'.s2.trace ≠ [])
      ∧ (Op.exec (secondUpdate .s2) none ∈ s'.s2.trace → errs s'.s1.trace ≠ []) := by
  rcases s with ⟨m, wg, ⟨pc1, t1, n1⟩, ⟨pc2, t2, n2⟩, ⟨r1, r2⟩, ex⟩
  obtain ⟨-, f1, f2, g1, g2⟩ := h
  simp only at f1 f2 g1 g2
  cases i
  · cases pc1 <;> simp [sessStep, advance, Sys.setSess, Sys.sess] at hs <;> subst hs <;>
      simp [errs_append, errs_ok, errs_nil, f1, f2] <;> exact ⟨g1, g2⟩
  · cases pc2 <;> simp [sessStep, advance, Sys.setSess, Sys.sess] at hs <;> subst hs <;>
      simp [errs_append, errs_ok, errs_nil, f1, f2] <;> exact ⟨g1, g2⟩

/-- Steps of `simulateDeadlock` keep the facts of `Contended`. -/
theorem contended_simulateDeadlockStep {s s' : Sys} (h : Contended s) (hs : simulateDeadlockStep s = some s') :
    Op.exec (firstUpdate .s1) none ∈ s'.s1.trace
      ∧ Op.exec (firstUpdate .s2) none ∈ s'.s2.trace
      ∧ (Op.exec (secondUpdate .s1) none ∈ s'.s1.trace → errs s'.s2.trace ≠ [])
      ∧ (Op.exec (secondUpdate .s2) none ∈ s'.s2.trace → errs s'.s1.trace ≠ []) := by
  rcases s with ⟨m, wg, ⟨pc1, t1, n1⟩, ⟨pc2, t2, n2⟩, ⟨r1, r2⟩, ex⟩
  obtain ⟨-, f1, f2, g1, g2⟩ := h
  simp only at f1 f2 g1 g2
  cases m <;> simp [simulateDeadlockStep, launch, Sys.setSess, Sys.sess] at hs <;>
    obtain ⟨hgr, rfl⟩ := hs <;> exact ⟨f1, f2, g1, g2⟩

/-- Every step keeps `Contended`. -/
theorem contended_step {s s' : Sys} {l : Label} (h : Contended s) (hs : step s l = some s') :
    Contended s' := by
  have hi := inv_step h.inv hs
  unfold step at hs
  split at hs
  · exact absurd hs (by simp)
  · rename_i hne
    have hne' : s.exited = false := by simpa using hne
    have key : Op.exec (firstUpdate .s1) none ∈ s'.s1.trace
        ∧ Op.exec (firstUpdate .s2) none ∈ s'.s2.trace
        ∧ (Op.exec (secondUpdate .s1) none ∈ s'.s1.trace → errs s'.s2.trace ≠ [])
        ∧ (Op.exec (secondUpdate .s2) none ∈ s'.s2.trace → errs s'.s1.trace ≠ []) := by
      cases l with
      | main => exact contended_simulateDeadlockStep h hs
      | sess i => exact contended_sessStep h hs
      | reply i err =>
        cases i
        · exact contended_replyStep1 h hne' hs
        · exact contended_replyStep2 h hne' hs
    exact ⟨hi, key.1, key.2.1, key.2.2.1, key.2.2.2⟩

/-- Every run keeps `Contended`. -/
theorem contended_run {ls : List Label} {s s' : Sys} (h : Contended s)
    (hs : run s ls = some s') : Contended s' := by
  induction ls generalizing s with
  | nil =>
    simp only [run, Option.some.injEq] at hs
    exact hs ▸ h
  | cons l ls ih =>
    simp only [run] at hs
    cases hl : step s l with
    | none => simp [hl] at hs
    | some m =>
      rw [hl] at hs
      exact ih (contended_step h hl) hs

/-- Outcome for session 1 refused: in a state where no step can be taken,
reached with one error answered to session 1 and none to session 2, session 1
made the calls of its run with a failed second UPDATE and session 2 the
calls of its run without error. -/
theorem contended_outcome1 {s : Sys} {e : GoError} (h : Contended s) (ht : Terminal s)
    (he1 : errs s.s1.trace = [e]) (he2 : errs s.s2.trace = []) :
    s.exited = false ∧ s.main = .returned
      ∧ session1 ⟨none, none, none, some e, none⟩ = ⟨s.s1.trace, Ending.returned⟩
      ∧ session2 Responses.allOk = ⟨s.s2.trace, Ending.returned⟩ := by
  have hne : s.exited = false := by
    cases hx : s.exited
    · rfl
    · exfalso
      have hf := h.inv.exit.mp hx
      have s1 := h.inv.shape1
      have s2 := h.inv.shape2
      have f1 := h.first1
      have g1 := h.second1
      rcases hf with hf | hf
      · simp only [Shape, hf, FatalTrace] at s1
        obtain ⟨e', hq | hq | hq | hq⟩ := s1 <;> rw [hq] at f1 g1 <;>
          simp [firstUpdate, secondUpdate, lockedTrace, he2] at f1 g1
      · simp only [Shape, hf, FatalTrace] at s2
        obtain ⟨e', hq | hq | hq | hq⟩ := s2 <;> rw [hq] at he2 <;>
          simp [lockedTrace, errs_ok, errs_err, errs_nil] at he2
  have hm := terminal_returned h.inv hne ht
  have hmi := h.inv.main
  simp only [hm, MainInv] at hmi
  obtain ⟨-, hp1, hp2, -, -⟩ := hmi
  have s1 := h.inv.shape1
  have s2 := h.inv.shape2
  simp only [Shape, hp1, ReturningTrace] at s1
  simp only [Shape, hp2, ReturningTrace] at s2
  refine ⟨hne, hm, ?_, ?_⟩
  · rcases s1 with hq | ⟨e', hq⟩
    · rw [hq] at he1
      simp [committedTrace, lockedTrace, errs_ok, errs_nil] at he1
    · rw [hq] at he1 ⊢
      simp [abortedTrace, lockedTrace, errs_ok, errs_err, errs_nil] at he1
      subst he1
      rfl
  · rcases s2 with hq | ⟨e', hq⟩
    · rw [hq]
      rfl
    · rw [hq] at he2
      simp [abortedTrace, lockedTrace, errs_ok, errs_err, errs_nil] at he2

/-- Outcome for session 2 refused: the mirror image of `contended_outcome1`. -/
theorem contended_outcome2 {s : Sys} {e : GoError} (h : Contended s) (ht : Terminal s)
    (he2 : errs s.s2.trace = [e]) (he1 : errs s.s1.trace = []) :
    s.exited = false ∧ s.main = .returned
      ∧ session2 ⟨none, none, none, some e, none⟩ = ⟨s.s2.trace, Ending.returned⟩
      ∧ session1 Responses.allOk = ⟨s.s1.trace, Ending.returned⟩ := by
  have hne : s.exited = false := by
    cases hx : s.exited
    · rfl
    · exfalso
      have hf := h.inv.exit.mp hx
      have s1 := h.inv.shape1
      have s2 := h.inv.shape2
      have f2 := h.first2
      have g2 := h.second2
      rcases hf with hf | hf
      · simp only [Shape, hf, FatalTrace] at s1
        obtain ⟨e', hq | hq | hq | hq⟩ := s1 <;> rw [hq] at he1 <;>
          simp [lockedTrace, errs_ok, errs_err, errs_nil] at he1
      · simp only [Shape, hf, FatalTrace] at s2
        obtain ⟨e', hq | hq | hq | hq⟩ := s2 <;> rw [hq] at f2 g2 <;>
          simp [firstUpdate, secondUpdate, lockedTrace, he1] at f2 g2
  have hm := terminal_returned h.inv hne ht
  have hmi := h.inv.main
  simp only [hm, MainInv] at hmi
  obtain ⟨-, hp1, hp2, -, -⟩ := hmi
  have s1 := h.inv.shape1
  have s2 := h.inv.shape2
  simp only [Shape, hp1, ReturningTrace] at s1
  simp only [Shape, hp2, ReturningTrace] at s2
  refine ⟨hne, hm, ?_, ?_⟩
  · rcases s2 with hq | ⟨e', hq⟩
    · rw [hq] at he2
      simp [committedTrace, lockedTrace, errs_ok, errs_nil] at he2
    · rw [hq] at he2 ⊢
      simp [abortedTrace, lockedTrace, errs_ok, errs_err, errs_nil] at he2
      subst he2
      rfl
  · rcases s1 with hq | ⟨e', hq⟩
    · rw [hq]
      rfl
    · rw [hq] at he1
      simp [abortedTrace, lockedTrace, errs_ok, errs_err, errs_nil] at he1

/-- Every step uses up some of the bound `Sys.fuel`. -/
theorem fuel_step {s s' : Sys} {l : Label} (h : Inv s) (hs : step s l = some s') :
    s'.fuel < s.fuel := by
  have hm := h.main
  unfold step at hs
  split at hs
  · exact absurd hs (by simp)
  · rcases s with ⟨m, wg, ⟨pc1, t1, n1⟩, ⟨pc2, t2, n2⟩, ⟨r1, r2⟩, ex⟩
    simp only at hm
    cases l with
    | main =>
      cases m <;> simp only [MainInv] at hm <;>
        simp [simulateDeadlockStep, launch, Sys.setSess, Sys.sess] at hs <;>
        obtain ⟨hgr, rfl⟩ := hs <;>
        simp_all [Sys.fuel, MainPc.fuel, Pc.fuel]
    | sess i =>
      cases i
      · cases pc1 <;> simp [sessStep, advance, Sys.setSess, Sys.sess] at hs <;> subst hs <;>
          simp [Sys.fuel, Pc.fuel]
      · cases pc2 <;> simp [sessStep, advance, Sys.setSess, Sys.sess] at hs <;> subst hs <;>
          simp [Sys.fuel, Pc.fuel]
    | reply i err =>
      cases i
      · cases pc1 <;> cases err <;>
          simp [replyStep, advance, fatalStep, Sys.setSess, Sys.sess] at hs <;>
          obtain ⟨hgr, rfl⟩ := hs <;> simp [Sys.fuel, Pc.fuel]
      · cases pc2 <;> cases err <;>
          simp [replyStep, advance, fatalStep, Sys.setSess, Sys.sess] at hs <;>
          obtain ⟨hgr, rfl⟩ := hs <;> simp [Sys.fuel, Pc.fuel]

/-- Termination: a run is never longer than the bound of the state it starts from. -/
theorem run_fuel {ls : List Label} {s s' : Sys} (h : Inv s) (hs : run s ls = some s') :
    s'.fuel + ls.length ≤ s.fuel := by
  induction ls generalizing s with
  | nil =>
    simp only [run, Option.some.injEq] at hs
    subst hs
    simp
  | cons l ls ih =>
    simp only [run] at hs
    cases hl : step s l with
    | none => simp [hl] at hs
    | some m =>
      rw [hl] at hs
      have h1 := ih (inv_step h hl) hs
      have h2 := fuel_step h hl
      simp only [List.length_cons]
      omega

/-- Error answers of two sequences of steps run one after the other. -/
theorem rejections_append (a b : List Label) :
    rejections (a ++ b) = rejections a ++ rejections b := by
  simp [rejections, List.filterMap_append]

/-- A step without error answer adds no error to the trace of a session. -/
theorem errs_quiet_step {s s' : Sys} {l : Label} (hs : step s l = some s')
    (hq : rejections [l] = []) (j : SessionId) :
    errs (s'.sess j).trace = errs (s.sess j).trace := by
  have h := errs_step j hs
  simpa [rejectionsOf, hq] using h

/-- Once `simulateDeadlock` has returned no step can be taken. -/
theorem returned_terminal {s : Sys} (h : Inv s) (hm : s.main = .returned) : Terminal s := by
  have hmi := h.main
  simp only [hm, MainInv] at hmi
  obtain ⟨-, hp1, hp2, -, -⟩ := hmi
  intro l
  unfold step
  split
  · rfl
  · cases l with
    | main => simp [simulateDeadlockStep, hm]
    | sess i => cases i <;> simp [sessStep, Sys.sess, hp1, hp2]
    | reply i err => cases i <;> simp [replyStep, Sys.sess, hp1, hp2]

/-- Progress: a running process in which `simulateDeadlock` has not returned
and the two sessions are not both waiting for the answer to their second
UPDATE can take a step that is not an error answer of the store. -/
theorem quiet_step {s : Sys} (h : Inv s) (hne : s.exited = false) (hm : s.main ≠ .returned)
    (hd : ¬ (s.s1.pc = .inExec2 ∧ s.s2.pc = .inExec2)) :
    ∃ l s', step s l = some s' ∧ rejections [l] = [] := by
  rcases s with ⟨m, wg, ⟨pc1, t1, n1⟩, ⟨pc2, t2, n2⟩, ⟨r1, r2⟩, ex⟩
  obtain ⟨hmi, h1, h2, hl, he⟩ := h
  simp only at hne hmi hl he hm hd
  subst hne
  simp only [true_implies, LockInv, expectedLocks] at hl
  cases pc1 <;>
    first
    | exact ⟨.sess .s1, _, rfl, rfl⟩
    | exact ⟨.reply .s1 none, _, rfl, rfl⟩
    | (cases pc2 <;>
        first
        | exact ⟨.sess .s2, _, rfl, rfl⟩
        | exact ⟨.reply .s2 none, _, rfl, rfl⟩
        | (cases m <;>
            first
            | exact ⟨.main, _, rfl, rfl⟩
            | (exfalso
               simp [MainInv, doneCount] at hmi he hm hd
               done)
            | (refine ⟨.main, ?_⟩
               simp [MainInv, doneCount] at hmi
               simp [step, simulateDeadlockStep, rejections, hmi]
               done)
            | (refine ⟨.reply .s1 none, ?_⟩
               simp [holdsFirst, holdsSecond] at hl
               simp [step, replyStep, Sys.sess, rejections, Locks.grantable, Locks.holder,
                 firstUpdate, secondUpdate, hl]
               done)
            | (refine ⟨.reply .s2 none, ?_⟩
               simp [holdsFirst, holdsSecond] at hl
               simp [step, replyStep, Sys.sess, rejections, Locks.grantable, Locks.holder,
                 firstUpdate, secondUpdate, hl]
               done)))

/-- Completion: once the store has answered some call with an error, every
reachable state can be continued, with no further error answer, to a state
in which no step can be taken. -/
theorem quiet_completion (n : Nat) :
    ∀ s : Sys, s.fuel ≤ n → Inv s → (errs s.s1.trace ≠ [] ∨ errs s.s2.trace ≠ []) →
      ∃ more s', run s more = some s' ∧ rejections more = [] ∧ Terminal s' := by
  induction n with
  | zero =>
    intro s hf hi he
    by_cases hx : s.exited = true
    · exact ⟨[], s, rfl, rfl, fun l => by simp [step, hx]⟩
    by_cases hm : s.main = .returned
    · exact ⟨[], s, rfl, rfl, returned_terminal hi hm⟩
    have hd : ¬ (s.s1.pc = .inExec2 ∧ s.s2.pc = .inExec2) := by
      rintro ⟨a, b⟩
      have s1 := hi.shape1
      have s2 := hi.shape2
      simp only [Shape, a] at s1
      simp only [Shape, b] at s2
      rw [s1, s2] at he
      simp [lockedTrace, errs_ok, errs_nil] at he
    obtain ⟨l, s', hs, -⟩ := quiet_step hi (by simpa using hx) hm hd
    have := fuel_step hi hs
    omega
  | succ n ih =>
    intro s hf hi he
    by_cases hx : s.exited = true
    · exact ⟨[], s, rfl, rfl, fun l => by simp [step, hx]⟩
    by_cases hm : s.main = .returned
    · exact ⟨[], s, rfl, rfl, returned_terminal hi hm⟩
    have hd : ¬ (s.s1.pc = .inExec2 ∧ s.s2.pc = .inExec2) := by
      rintro ⟨a, b⟩
      have s1 := hi.shape1
      have s2 := hi.shape2
      simp only [Shape, a] at s1
      simp only [Shape, b] at s2
      rw [s1, s2] at he
      simp [lockedTrace, errs_ok, errs_nil] at he
    obtain ⟨l, s', hs, hq⟩ := quiet_step hi (by simpa using hx) hm hd
    have hlt := fuel_step hi hs
    have he' : errs s'.s1.trace ≠ [] ∨ errs s'.s2.trace ≠ [] := by
      have a := errs_quiet_step hs hq .s1
      have b := errs_quiet_step hs hq .s2
      simp only [Sys.sess] at a b
      rw [a, b]
      exact he
    obtain ⟨more, s'', hr, hrej, ht⟩ := ih s' (by omega) (inv_step hi hs) he'
    refine ⟨l :: more, s'', ?_, ?_, ht⟩
    · simp [run, hs, hr]
    · have := rejections_append [l] more
      simp only [List.singleton_append] at this
      rw [this, hq, hrej]
      rfl

/-- From a state in which the first UPDATE of session `i` is granted and its
second UPDATE is not answered yet, the session can send its second UPDATE and
the store can answer it with any error `e`. -/
theorem can_reject {d : Sys} (hne : d.exited = false) (i : SessionId) (e : GoError)
    (h : awaitsSecond (d.sess i) = true) :
    ∃ more s, run d more = some s ∧ rejections more = [(i, e)] := by
  rcases d with ⟨m, wg, ⟨pc1, t1, n1⟩, ⟨pc2, t2, n2⟩, ⟨r1, r2⟩, ex⟩
  simp only at hne
  subst hne
  cases i
  · simp only [Sys.sess] at h
    cases pc1 <;> simp [awaitsSecond] at h
    · exact ⟨[.sess .s1, .sess .s1, .reply .s1 (some e)], _, rfl, rfl⟩
    · exact ⟨[.sess .s1, .reply .s1 (some e)], _, rfl, rfl⟩
    · exact ⟨[.reply .s1 (some e)], _, rfl, rfl⟩
  · simp only [Sys.sess] at h
    cases pc2 <;> simp [awaitsSecond] at h
    · exact ⟨[.sess .s2, .sess .s2, .reply .s2 (some e)], _, rfl, rfl⟩
    · exact ⟨[.sess .s2, .reply .s2 (some e)], _, rfl, rfl⟩
    · exact ⟨[.reply .s2 (some e)], _, rfl, rfl⟩

/-- A state in which both first UPDATEs are granted and neither second UPDATE
is answered is a running state with rows 1 and 2 locked by sessions 1 and 2,
and it satisfies `Contended` with no error in either trace. -/
theorem contended_of_awaits {d : Sys} (h : Inv d) (h1 : awaitsSecond d.s1 = true)
    (h2 : awaitsSecond d.s2 = true) :
    d.exited = false ∧ d.locks = ⟨some .s1, some .s2⟩ ∧ Contended d
      ∧ errs d.s1.trace = [] ∧ errs d.s2.trace = [] := by
  rcases d with ⟨m, wg, ⟨pc1, t1, n1⟩, ⟨pc2, t2, n2⟩, ⟨r1, r2⟩, ex⟩
  have hi := h
  obtain ⟨hm, a1, a2, hl, he⟩ := h
  simp only at hm a1 a2 hl he h1 h2
  have hne : ex = false := by
    cases ex
    · rfl
    · exfalso
      rcases he.mp rfl with hf | hf
      · rw [hf] at h1
        simp [awaitsSecond] at h1
      · rw [hf] at h2
        simp [awaitsSecond] at h2
  subst hne
  simp only [true_implies] at hl
  cases pc1 <;> simp [awaitsSecond] at h1 <;> cases pc2 <;> simp [awaitsSecond] at h2 <;>
    simp only [Shape] at a1 a2 <;> subst a1 a2 <;>
    simp [LockInv, expectedLocks, holdsFirst, holdsSecond] at hl <;>
    obtain ⟨rfl, rfl⟩ := hl <;>
    refine ⟨rfl, rfl, ⟨hi, ?_, ?_, ?_, ?_⟩, ?_, ?_⟩ <;>
    simp [lockedTrace, firstUpdate, secondUpdate, errs_append, errs_ok, errs_nil]

/-- C6: in every state the process can reach in which both first UPDATEs are
granted and neither second UPDATE is answered: (1) the row of the second
UPDATE of each session is locked by the other session; (2) the store cannot
grant either second UPDATE; (3) a session that has sent its second UPDATE
waits for the other, so when both have sent it the wait-for graph has the
cycle session 1, session 2, session 1; (4) in every complete continuation in
which the store answers exactly one call with an error, to session `i`, the
process does not exit, `simulateDeadlock` returns, session `i` made exactly
the calls of its run with a failed second UPDATE (it rolled back and did not
commit) and the other session exactly the calls of its run without error (it
committed); (5) for each session `i` and each error such a complete
continuation exists: the store refuses the second UPDATE of `i`, the run
reaches a state in which no step can be taken, session `i` has rolled back
without committing and the other session has committed; (6) every
continuation in which the store has answered exactly one call with an error
can be completed, with no further error, to a state in which no step can be
taken; (7) no continuation is longer than the bound `Sys.fuel`, at most 15
steps. -/
theorem canonical_deadlock (ls : List Label) (d : Sys) (hd : run init ls = some d)
    (h1 : awaitsSecond d.s1 = true) (h2 : awaitsSecond d.s2 = true) :
    (∀ i, d.locks.holder (secondUpdate i).id = some i.other)
      ∧ (∀ i, step d (.reply i none) = none)
      ∧ (∀ i, (d.sess i).pc = .inExec2 → waitsFor d i i.other = true)
      ∧ (∀ (more : List Label) (s : Sys) (i : SessionId) (e : GoError),
          run d more = some s → rejections more = [(i, e)] → Terminal s →
          s.exited = false ∧ s.main = .returned
            ∧ session i ⟨none, none, none, some e, none⟩ = ⟨(s.sess i).trace, Ending.returned⟩
            ∧ session i.other Responses.allOk = ⟨(s.sess i.other).trace, Ending.returned⟩
            ∧ Op.rollback ∈ (s.sess i).trace
            ∧ (∀ c, Op.commit c ∉ (s.sess i).trace)
            ∧ Op.commit none ∈ (s.sess i.other).trace)
      ∧ (∀ (i : SessionId) (e : GoError), ∃ more s,
          run d more = some s ∧ rejections more = [(i, e)] ∧ Terminal s
            ∧ s.exited = false ∧ s.main = .returned
            ∧ session i ⟨none, none, none, some e, none⟩ = ⟨(s.sess i).trace, Ending.returned⟩
            ∧ session i.other Responses.allOk = ⟨(s.sess i.other).trace, Ending.returned⟩
            ∧ Op.rollback ∈ (s.sess i).trace
            ∧ (∀ c, Op.commit c ∉ (s.sess i).trace)
            ∧ Op.commit none ∈ (s.sess i.other).trace)
      ∧ (∀ (more : List Label) (s : Sys) (i : SessionId) (e : GoError),
          run d more = some s → rejections more = [(i, e)] →
          ∃ rest s', run s rest = some s' ∧ rejections rest = [] ∧ Terminal s')
      ∧ (∀ (more : List Label) (s : Sys), run d more = some s →
          s.fuel + more.length ≤ d.fuel ∧ d.fuel ≤ 15) := by
  have hid := inv_run inv_init hd
  obtain ⟨hne, hlk, hc, e1, e2⟩ := contended_of_awaits hid h1 h2
  have part4 : ∀ (more : List Label) (s : Sys) (i : SessionId) (e : GoError),
      run d more = some s → rejections more = [(i, e)] → Terminal s →
      s.exited = false ∧ s.main = .returned
        ∧ session i ⟨none, none, none, some e, none⟩ = ⟨(s.sess i).trace, Ending.returned⟩
        ∧ session i.other Responses.allOk = ⟨(s.sess i.other).trace, Ending.returned⟩
        ∧ Op.rollback ∈ (s.sess i).trace
        ∧ (∀ c, Op.commit c ∉ (s.sess i).trace)
        ∧ Op.commit none ∈ (s.sess i.other).trace := by
    intro more s i e hr hrej ht
    have hcs := contended_run hc hr
    have r1 := errs_run .s1 hr
    have r2 := errs_run .s2 hr
    simp only [Sys.sess, e1, e2, List.nil_append] at r1 r2
    cases i
    · have q1 : errs s.s1.trace = [e] := by simp [r1, rejectionsOf, hrej]
      have q2 : errs s.s2.trace = [] := by simp [r2, rejectionsOf, hrej]
      obtain ⟨a, b, c, f⟩ := contended_outcome1 hcs ht q1 q2
      have c' := congrArg Run.trace c
      have f' := congrArg Run.trace f
      simp only at c' f'
      refine ⟨a, b, c, f, ?_, ?_, ?_⟩
      · simp [Sys.sess, ← c', session1, ret]
      · simp [Sys.sess, ← c', session1, ret]
      · simp [Sys.sess, SessionId.other, ← f', session2, ret, Responses.allOk]
    · have q1 : errs s.s1.trace = [] := by simp [r1, rejectionsOf, hrej]
      have q2 : errs s.s2.trace = [e] := by simp [r2, rejectionsOf, hrej]
      obtain ⟨a, b, c, f⟩ := contended_outcome2 hcs ht q2 q1
      have c' := congrArg Run.trace c
      have f' := congrArg Run.trace f
      simp only at c' f'
      refine ⟨a, b, c, f, ?_, ?_, ?_⟩
      · simp [Sys.sess, ← c', session2, ret]
      · simp [Sys.sess, ← c', session2, ret]
      · simp [Sys.sess, SessionId.other, ← f', session1, ret, Responses.allOk]
  have part6 : ∀ (more : List Label) (s : Sys) (i : SessionId) (e : GoError),
      run d more = some s → rejections more = [(i, e)] →
      ∃ rest s', run s rest = some s' ∧ rejections rest = [] ∧ Terminal s' := by
    intro more s i e hr hrej
    have r1 := errs_run .s1 hr
    have r2 := errs_run .s2 hr
    simp only [Sys.sess, e1, e2, List.nil_append] at r1 r2
    refine quiet_completion s.fuel s (Nat.le_refl _) (inv_run hid hr) ?_
    cases i
    · left
      simp [r1, rejectionsOf, hrej]
    · right
      simp [r2, rejectionsOf, hrej]
  refine ⟨?_, ?_, ?_, part4, ?_, part6, ?_⟩
  · intro i
    cases i <;> simp [hlk, Locks.holder, secondUpdate, SessionId.other]
  · intro i
    cases i
    · cases hp : d.s1.pc <;> simp [awaitsSecond, hp] at h1 <;>
        simp [step, hne, replyStep, Sys.sess, hp, hlk, Locks.grantable, Locks.holder,
          secondUpdate]
    · cases hp : d.s2.pc <;> simp [awaitsSecond, hp] at h2 <;>
        simp [step, hne, replyStep, Sys.sess, hp, hlk, Locks.grantable, Locks.holder,
          secondUpdate]
  · intro i hp
    cases i <;>
      simp [waitsFor, pendingRow, hp, hlk, Locks.holder, secondUpdate, SessionId.other]
  · intro i e
    have ha : awaitsSecond (d.sess i) = true := by cases i <;> assumption
    obtain ⟨m0, s0, hr0, hj0⟩ := can_reject hne i e ha
    obtain ⟨rest, s', hr1, hj1, ht⟩ := part6 m0 s0 i e hr0 hj0
    have hr : run d (m0 ++ rest) = some s' := by simp [run_append, hr0, hr1]
    have hj : rejections (m0 ++ rest) = [(i, e)] := by
      rw [rejections_append, hj0, hj1]
      rfl
    exact ⟨m0 ++ rest, s', hr, hj, ht, part4 (m0 ++ rest) s' i e hr hj ht⟩
  · intro more s hr
    refine ⟨run_fuel hid hr, ?_⟩
    have hmi := hid.main
    rcases d with ⟨m, wg, ⟨pc1, t1, n1⟩, ⟨pc2, t2, n2⟩, ⟨r1, r2⟩, ex⟩
    simp only at h1 h2 hmi
    cases pc1 <;> simp [awaitsSecond] at h1 <;> cases pc2 <;> simp [awaitsSecond] at h2 <;>
      cases m <;> simp [MainInv] at hmi <;> simp [Sys.fuel, MainPc.fuel, Pc.fuel]

/-- No step can be taken from the state that ends the resolved deadlock. -/
theorem resolved_terminal : Terminal resolvedState := by
  intro l
  cases l with
  | main => rfl
  | sess i => cases i <;> rfl
  | reply i err => cases i <;> cases err <;> rfl

/-- No step can be taken from the state that ends the deadlock resolved
against session 2. -/
theorem resolved_terminal2 : Terminal resolvedState2 := by
  intro l
  cases l with
  | main => rfl
  | sess i => cases i <;> rfl
  | reply i err => cases i <;> cases err <;> rfl

/-- Witness of C6: `deadlockRun` reaches the deadlock, where each session
waits for the other.  When the store refuses session 1, the run ends with
session 1 rolled back and session 2 committed; when it refuses session 2,
with session 2 rolled back and session 1 committed. -/
theorem canonical_deadlock_witness :
    run init deadlockRun = some deadlockState
      ∧ waitsFor deadlockState .s1 .s2 = true ∧ waitsFor deadlockState .s2 .s1 = true
      ∧ (run deadlockState resolutionRun = some resolvedState
        ∧ rejections resolutionRun = [(.s1, deadlockErr)]
        ∧ Op.rollback ∈ resolvedState.s1.trace
        ∧ (∀ c, Op.commit c ∉ resolvedState.s1.trace)
        ∧ Op.commit none ∈ resolvedState.s2.trace)
      ∧ (run deadlockState resolutionRun2 = some resolvedState2
        ∧ rejections resolutionRun2 = [(.s2, deadlockErr)]
        ∧ Op.rollback ∈ resolvedState2.s2.trace
        ∧ (∀ c, Op.commit c ∉ resolvedState2.s2.trace)
        ∧ Op.commit none ∈ resolvedState2.s1.trace) :=
  have h := canonical_deadlock deadlockRun deadlockState (by decide) (by decide) (by decide)
  have o := h.2.2.2.1 resolutionRun resolvedState .s1 deadlockErr (by decide) (by decide)
    resolved_terminal
  have p := h.2.2.2.1 resolutionRun2 resolvedState2 .s2 deadlockErr (by decide) (by decide)
    resolved_terminal2
  ⟨by decide, h.2.2.1 .s1 (by decide), h.2.2.1 .s2 (by decide),
    ⟨by decide, by decide, o.2.2.2.2.1, o.2.2.2.2.2.1, o.2.2.2.2.2.2⟩,
    ⟨by decide, by decide, p.2.2.2.2.1, p.2.2.2.2.2.1, p.2.2.2.2.2.2⟩⟩

end PgCluster
